import Mathlib

/-!
Verification development for the recursive query-decomposition planner
(`recursive_planning.c`) of a distributed SQL engine.

The C source is shallowly embedded: the Postgres `Query` tree and its
satellite node types become a mutual inductive family, destructive pointer
updates become explicit state passing (functions return the updated
values), and external collaborators (catalog lookups, the colocation /
restriction-equivalence analysis, the single-node optimizer) are either
recorded as data on the embedded nodes or passed in as boolean-valued
oracle parameters, exactly as the specification describes them
("consumed as a boolean-valued oracle").

Machine integers: plan ids and subplan ids are modelled as `Nat`; the C
counters are `uint64`/`uint32` and none of the modelled operations can
overflow them for any feasible number of subplans, so no modular
reduction is introduced.
-/

/- ---------------------------------------------------------------------
Section 1: result identifiers.

`GenerateResultId` embeds recursive_planning.c lines 2599-2607:

    appendStringInfo(resultId, UINT64_FORMAT "_%u", planId, subPlanId);

`decimalCharsCore` renders an unsigned integer in decimal, most
significant digit first, as printf's %u / UINT64_FORMAT do; the `fuel`
argument (n+1 at the call site) only bounds the recursion depth.
--------------------------------------------------------------------- -/

def decimalCharsCore (n : Nat) : Nat → List Char
  | 0 => []
  | fuel + 1 =>
    if n < 10 then [Nat.digitChar n]
    else decimalCharsCore (n / 10) fuel ++ [Nat.digitChar (n % 10)]

def decimalChars (n : Nat) : List Char := decimalCharsCore n (n + 1)

def GenerateResultId (planId subPlanId : Nat) : String :=
  String.mk (decimalChars planId ++ '_' :: decimalChars subPlanId)

/-- Parse a decimal character list back to a number (verification helper,
used to establish injectivity of the rendering). -/
def charsToNat (cs : List Char) : Nat :=
  cs.foldl (fun acc c => acc * 10 + (c.toNat - 48)) 0

/- ---------------------------------------------------------------------
Section 2: the query tree model.

A shallow embedding of the parts of the Postgres `Query` tree that
recursive_planning.c reads and rewrites: range table, join tree, target
list, CTE list, set-operation tree, HAVING qualifier.  Catalog facts that
the C code obtains from external collaborators (whether a relation is a
distributed / reference / citus-local / plain local table, whether a
column type supports the binary COPY format) are recorded as data on the
embedded nodes, as the specification prescribes for predicate oracles.
--------------------------------------------------------------------- -/

inductive CmdType where
  | select | insert | update | delete
deriving DecidableEq

inductive JoinType where
  | inner | left | right | full
deriving DecidableEq

inductive SetOp where
  | union | intersect | except
deriving DecidableEq

/-- Catalog classification of a relation referenced by an RTE_RELATION
entry; stands in for the relation OID together with the external
IsCitusTable / IsCitusTableType / relkind lookups. -/
inductive RelCategory where
  | distributedTable | referenceTable | citusLocalTable
  | postgresLocalTable | materializedView | regularView
deriving DecidableEq

/-- A column type: the OID plus the externally looked-up fact whether the
type can be transferred in the binary COPY format. -/
structure Ty where
  oid : Nat
  binaryOk : Bool
deriving DecidableEq

inductive CopyFormat where
  | text | binary
deriving DecidableEq

/-- The set-operation tree under Query.setOperations: SetOperationStmt
nodes over RangeTblRef leaves (leaves carry the 1-based range table
index). -/
inductive SetOpNode where
  | setOpStmt (op : SetOp) (larg rarg : SetOpNode)
  | rtRef (rtindex : Nat)

/-- Payload of an RTE_FUNCTION entry.  `readIntermediateResult` is the
stand-in table function produced by BuildReadIntermediateResultsQuery
(funcexpr arguments: the result id constant and the copy-format constant,
plus the column definition list); `userFunction` is any other function
call appearing in FROM (its eref column names and, for the
non-composite case, its result type). -/
inductive FuncRteCall where
  | userFunction (erefColnames : List String) (funcresulttype : Ty)
  | readIntermediateResult (resultId : String) (format : CopyFormat)
      (funcColNames : List String) (funcColTypes : List Ty)

mutual

inductive Query where
  | mk (commandType : CmdType) (hasRecursive : Bool)
       (cteList : List CommonTableExpr)
       (rtable : List RangeTblEntry)
       (jointree : JoinTreeNode)
       (targetList : List TargetEntry)
       (returningList : List TargetEntry)
       (havingQual : Option Expr)
       (setOperations : Option SetOpNode)

inductive CommonTableExpr where
  | mk (ctename : String) (cterefcount : Nat)
       (aliascolnames : List String) (ctequery : Query)

inductive RangeTblEntry where
  | relation (category : RelCategory)
  | subqueryRte (subquery : Query) (viaCopyObject : Bool)
  | cteRte (ctename : String) (ctelevelsup : Nat)
  | functionRte (lateral : Bool) (funcordinality : Bool) (call : FuncRteCall)
  | valuesRte
  | joinRte

inductive JoinTreeNode where
  | fromExpr (fromlist : List JoinTreeNode) (quals : Option Expr)
  | joinExpr (jointype : JoinType) (larg rarg : JoinTreeNode) (quals : Option Expr)
  | rangeTblRef (rtindex : Nat)

inductive TargetEntry where
  | mk (expr : Expr) (resname : String) (resjunk : Bool)

inductive Expr where
  | const (ty : Ty)
  | var (varlevelsup : Nat) (ty : Ty)
  | aggref (agglevelsup : Nat) (ty : Ty)
  | groupingFunc (agglevelsup : Nat) (ty : Ty)
  | placeHolderVar (phlevelsup : Nat) (ty : Ty)
  | sublink (subselect : Query) (ty : Ty)
  | opExpr (larg rarg : Expr) (ty : Ty)

end

def Query.commandType : Query → CmdType
  | .mk c _ _ _ _ _ _ _ _ => c

def Query.hasRecursive : Query → Bool
  | .mk _ h _ _ _ _ _ _ _ => h

def Query.cteList : Query → List CommonTableExpr
  | .mk _ _ c _ _ _ _ _ _ => c

def Query.rtable : Query → List RangeTblEntry
  | .mk _ _ _ r _ _ _ _ _ => r

def Query.jointree : Query → JoinTreeNode
  | .mk _ _ _ _ j _ _ _ _ => j

def Query.targetList : Query → List TargetEntry
  | .mk _ _ _ _ _ t _ _ _ => t

def Query.returningList : Query → List TargetEntry
  | .mk _ _ _ _ _ _ r _ _ => r

def Query.havingQual : Query → Option Expr
  | .mk _ _ _ _ _ _ _ h _ => h

def Query.setOperations : Query → Option SetOpNode
  | .mk _ _ _ _ _ _ _ _ s => s

def Query.setCteList (q : Query) (ctes : List CommonTableExpr) : Query :=
  match q with
  | .mk c h _ r j t rl hq s => .mk c h ctes r j t rl hq s

def Query.setRtable (q : Query) (rt : List RangeTblEntry) : Query :=
  match q with
  | .mk c h ct _ j t rl hq s => .mk c h ct rt j t rl hq s

def Query.setHavingQual (q : Query) (hq : Option Expr) : Query :=
  match q with
  | .mk c h ct r j t rl _ s => .mk c h ct r j t rl hq s

def CommonTableExpr.ctename : CommonTableExpr → String
  | .mk n _ _ _ => n

def CommonTableExpr.cterefcount : CommonTableExpr → Nat
  | .mk _ k _ _ => k

def CommonTableExpr.aliascolnames : CommonTableExpr → List String
  | .mk _ _ a _ => a

def CommonTableExpr.ctequery : CommonTableExpr → Query
  | .mk _ _ _ q => q

def TargetEntry.expr : TargetEntry → Expr
  | .mk e _ _ => e

def TargetEntry.resname : TargetEntry → String
  | .mk _ n _ => n

def TargetEntry.resjunk : TargetEntry → Bool
  | .mk _ _ j => j

/-- Result type of an expression node (exprType in the C source; the type
annotation is carried on every embedded expression node). -/
def exprType : Expr → Ty
  | .const ty => ty
  | .var _ ty => ty
  | .aggref _ ty => ty
  | .groupingFunc _ ty => ty
  | .placeHolderVar _ ty => ty
  | .sublink _ ty => ty
  | .opExpr _ _ ty => ty

/-- rt_fetch: 1-based lookup in a range table.  Out-of-range access is
undefined behaviour in the C original; the total model returns a values
RTE, and every theorem that inspects a leaf constrains the index. -/
def rt_fetch (rangeTableIndex : Nat) (rangeTableList : List RangeTblEntry) : RangeTblEntry :=
  rangeTableList.getD (rangeTableIndex - 1) .valuesRte

/-- Deferred error messages (errormessage.h): an error code plus the
primary message, reported to the caller which decides whether to raise. -/
inductive ErrorCode where
  | featureNotSupported
deriving DecidableEq

structure DeferredErrorMessage where
  code : ErrorCode
  message : String
deriving DecidableEq

/- ---------------------------------------------------------------------
Section 3: tree walkers.

ContainsReferencesToOuterQuery / ContainsReferencesToOuterQueryWalker
embed recursive_planning.c lines 1687-1760: a query_tree_walker descent
that tracks the nesting level and reports any Var / Aggref /
GroupingFunc / PlaceHolderVar whose levelsup exceeds the current level.
The helper functions spell out the query_tree_walker /
expression_tree_walker dispatch per node category.
--------------------------------------------------------------------- -/

mutual

def ContainsReferencesToOuterQueryWalker (level : Nat) : Expr → Bool
  | .const _ => false
  | .var varlevelsup _ => decide (varlevelsup > level)
  | .aggref agglevelsup _ => decide (agglevelsup > level)
  | .groupingFunc agglevelsup _ => decide (agglevelsup > level)
  | .placeHolderVar phlevelsup _ => decide (phlevelsup > level)
  | .sublink subselect _ => corqQueryBody (level + 1) subselect
  | .opExpr larg rarg _ =>
      ContainsReferencesToOuterQueryWalker level larg ||
      ContainsReferencesToOuterQueryWalker level rarg

def corqQueryBody (level : Nat) (q : Query) : Bool :=
  match q with
  | .mk _ _ cteList rtable jointree targetList returningList havingQual _ =>
      corqTargetList level targetList ||
      corqTargetList level returningList ||
      corqJoinTree level jointree ||
      corqOptExpr level havingQual ||
      corqCteList level cteList ||
      corqRtes level rtable

def corqTargetList (level : Nat) : List TargetEntry → Bool
  | [] => false
  | .mk e _ _ :: rest =>
      ContainsReferencesToOuterQueryWalker level e || corqTargetList level rest

def corqJoinTree (level : Nat) : JoinTreeNode → Bool
  | .fromExpr fromlist quals =>
      corqJoinTreeList level fromlist || corqOptExpr level quals
  | .joinExpr _ larg rarg quals =>
      corqJoinTree level larg || corqJoinTree level rarg || corqOptExpr level quals
  | .rangeTblRef _ => false

def corqJoinTreeList (level : Nat) : List JoinTreeNode → Bool
  | [] => false
  | n :: rest => corqJoinTree level n || corqJoinTreeList level rest

def corqOptExpr (level : Nat) : Option Expr → Bool
  | none => false
  | some e => ContainsReferencesToOuterQueryWalker level e

def corqCteList (level : Nat) : List CommonTableExpr → Bool
  | [] => false
  | .mk _ _ _ body :: rest =>
      corqQueryBody (level + 1) body || corqCteList level rest

def corqRtes (level : Nat) : List RangeTblEntry → Bool
  | [] => false
  | .subqueryRte sub _ :: rest =>
      corqQueryBody (level + 1) sub || corqRtes level rest
  | _ :: rest => corqRtes level rest

end

def ContainsReferencesToOuterQuery (query : Query) : Bool :=
  corqQueryBody 0 query

/- ---------------------------------------------------------------------
FindNodeMatchingCheckFunction / FindNodeMatchingCheckFunctionInRangeTableList.

Modelled from the spec: these generic search walkers live in a shared
utility file outside the provided sources.  Per the specification's
predicate oracles ("true if the referenced relation or, transitively,
every relation inside a referenced subquery ...") they apply the check
to every range table entry reachable from the given node, descending
into subquery RTEs, CTE definitions and sublink subqueries.
--------------------------------------------------------------------- -/

mutual

def FindNodeMatchingCheckFunction (check : RangeTblEntry → Bool) (q : Query) : Bool :=
  match q with
  | .mk _ _ cteList rtable jointree targetList returningList havingQual _ =>
      fnmcfRtes check rtable ||
      fnmcfTargetList check targetList ||
      fnmcfTargetList check returningList ||
      fnmcfJoinTree check jointree ||
      fnmcfOptExpr check havingQual ||
      fnmcfCtes check cteList

def fnmcfRtes (check : RangeTblEntry → Bool) : List RangeTblEntry → Bool
  | [] => false
  | rte :: rest => fnmcfRte check rte || fnmcfRtes check rest

def fnmcfRte (check : RangeTblEntry → Bool) (rte : RangeTblEntry) : Bool :=
  check rte ||
  match rte with
  | .subqueryRte sub _ => FindNodeMatchingCheckFunction check sub
  | _ => false

def fnmcfCtes (check : RangeTblEntry → Bool) : List CommonTableExpr → Bool
  | [] => false
  | .mk _ _ _ body :: rest =>
      FindNodeMatchingCheckFunction check body || fnmcfCtes check rest

def fnmcfTargetList (check : RangeTblEntry → Bool) : List TargetEntry → Bool
  | [] => false
  | .mk e _ _ :: rest => fnmcfExpr check e || fnmcfTargetList check rest

def fnmcfExpr (check : RangeTblEntry → Bool) : Expr → Bool
  | .sublink subselect _ => FindNodeMatchingCheckFunction check subselect
  | .opExpr larg rarg _ => fnmcfExpr check larg || fnmcfExpr check rarg
  | _ => false

def fnmcfOptExpr (check : RangeTblEntry → Bool) : Option Expr → Bool
  | none => false
  | some e => fnmcfExpr check e

def fnmcfJoinTree (check : RangeTblEntry → Bool) : JoinTreeNode → Bool
  | .fromExpr fromlist quals =>
      fnmcfJoinTreeList check fromlist || fnmcfOptExpr check quals
  | .joinExpr _ larg rarg quals =>
      fnmcfJoinTree check larg || fnmcfJoinTree check rarg || fnmcfOptExpr check quals
  | .rangeTblRef _ => false

def fnmcfJoinTreeList (check : RangeTblEntry → Bool) : List JoinTreeNode → Bool
  | [] => false
  | n :: rest => fnmcfJoinTree check n || fnmcfJoinTreeList check rest

end

def FindNodeMatchingCheckFunctionInRangeTableList
    (check : RangeTblEntry → Bool) (rangeTableList : List RangeTblEntry) : Bool :=
  fnmcfRtes check rangeTableList

/-- IsCitusTable classification (metadata cache oracle): distributed,
reference and citus-local tables are Citus tables. -/
def IsCitusTable : RelCategory → Bool
  | .distributedTable => true
  | .referenceTable => true
  | .citusLocalTable => true
  | _ => false

/-- Modelled from the spec: IsDistributedTableRTE (multi_logical_planner)
holds for range table entries naming a genuinely partitioned
(distributed) table — not reference tables, not citus-local tables. -/
def IsDistributedTableRTE : RangeTblEntry → Bool
  | .relation .distributedTable => true
  | _ => false

/-- Modelled from the spec: IsCitusTableRTE (multi_logical_planner) holds
for range table entries naming any Citus-managed table. -/
def IsCitusTableRTE : RangeTblEntry → Bool
  | .relation category => IsCitusTable category
  | _ => false

/-- IsRelationLocalTableOrMatView: citus local, plain postgres local, or
materialized view (recursive_planning.c lines 1520-1535). -/
def IsRelationLocalTableOrMatView (category : RelCategory) : Bool :=
  if !IsCitusTable category then true
  else if category = .citusLocalTable then true
  else false

/-- IsLocalTableRteOrMatView (recursive_planning.c lines 1487-1513): a
relation RTE that is not a plain view and whose relation is local or a
materialized view. -/
def IsLocalTableRteOrMatView : RangeTblEntry → Bool
  | .relation category =>
      if category = .regularView then false
      else IsRelationLocalTableOrMatView category
  | _ => false

/-- Modelled from the spec: ContainsReadIntermediateResultFunction detects
a read_intermediate_result call in a query fragment ("forcing
distributed-mode planning if F itself still contains a result-read
fragment"); in the model result-read calls occur only as function RTEs. -/
def IsReadIntermediateResultRTE : RangeTblEntry → Bool
  | .functionRte _ _ (.readIntermediateResult _ _ _ _) => true
  | _ => false

def ContainsReadIntermediateResultFunction (q : Query) : Bool :=
  FindNodeMatchingCheckFunction IsReadIntermediateResultRTE q

/-- ExtractSublinkWalker (recursive_planning.c lines 1043-1063) collects
the top-level sublinks of an expression without descending into them;
the model returns the sublinks' subselect queries, which is how the
callers consume the collected nodes. -/
def ExtractSublinkWalker : Expr → List Query
  | .sublink subselect _ => [subselect]
  | .opExpr larg rarg _ => ExtractSublinkWalker larg ++ ExtractSublinkWalker rarg
  | _ => []

/-- NodeContainsSubqueryReferencingOuterQuery (recursive_planning.c lines
1767-1783). -/
def NodeContainsSubqueryReferencingOuterQuery (node : Expr) : Bool :=
  (ExtractSublinkWalker node).any ContainsReferencesToOuterQuery

/- ---------------------------------------------------------------------
Section 4: CTE reference collection.

CteReferenceListWalker (recursive_planning.c lines 1642-1679) collects
every RTE_CTE range table entry whose ctelevelsup equals the nesting
level of the query it sits in, walking the tree in query_tree_walker
order (target list, returning list, join tree, having qualifier, CTE
list, range table) with QTW_EXAMINE_RTES_BEFORE.  The C code starts the
walk at level -1 and increments on the top Query node; the model starts
the body walk at level 0, which is the same thing.
--------------------------------------------------------------------- -/

mutual

def CteReferenceListWalker (level : Nat) (q : Query) : List RangeTblEntry :=
  match q with
  | .mk _ _ cteList rtable jointree targetList returningList havingQual _ =>
      ctewTargetList level targetList ++
      ctewTargetList level returningList ++
      ctewJoinTree level jointree ++
      ctewOptExpr level havingQual ++
      ctewCtes level cteList ++
      ctewRtes level rtable

def ctewTargetList (level : Nat) : List TargetEntry → List RangeTblEntry
  | [] => []
  | .mk e _ _ :: rest => ctewExpr level e ++ ctewTargetList level rest

def ctewExpr (level : Nat) : Expr → List RangeTblEntry
  | .sublink subselect _ => CteReferenceListWalker (level + 1) subselect
  | .opExpr larg rarg _ => ctewExpr level larg ++ ctewExpr level rarg
  | _ => []

def ctewOptExpr (level : Nat) : Option Expr → List RangeTblEntry
  | none => []
  | some e => ctewExpr level e

def ctewJoinTree (level : Nat) : JoinTreeNode → List RangeTblEntry
  | .fromExpr fromlist quals =>
      ctewJoinTreeList level fromlist ++ ctewOptExpr level quals
  | .joinExpr _ larg rarg quals =>
      ctewJoinTree level larg ++ ctewJoinTree level rarg ++ ctewOptExpr level quals
  | .rangeTblRef _ => []

def ctewJoinTreeList (level : Nat) : List JoinTreeNode → List RangeTblEntry
  | [] => []
  | n :: rest => ctewJoinTree level n ++ ctewJoinTreeList level rest

def ctewCtes (level : Nat) : List CommonTableExpr → List RangeTblEntry
  | [] => []
  | .mk _ _ _ body :: rest =>
      CteReferenceListWalker (level + 1) body ++ ctewCtes level rest

def ctewRtes (level : Nat) : List RangeTblEntry → List RangeTblEntry
  | [] => []
  | rte :: rest =>
      (match rte with
       | .cteRte _ ctelevelsup =>
           if ctelevelsup = level then [rte] else []
       | .subqueryRte sub _ => CteReferenceListWalker (level + 1) sub
       | _ => []) ++ ctewRtes level rest

end

def collectCteReferenceList (query : Query) : List RangeTblEntry :=
  CteReferenceListWalker 0 query

/- ---------------------------------------------------------------------
Section 5: result-reading queries and the subplan builder.
--------------------------------------------------------------------- -/

/-- Modelled from the spec: CanUseBinaryCopyFormatForTargetList lives in
multi_copy.c, outside the provided sources.  Per the specification the
copy format is "binary if every output column type supports binary
transfer, else text"; the output columns of a result-read query are the
non-junk entries of the target list. -/
def CanUseBinaryCopyFormatForTargetList (targetEntryList : List TargetEntry) : Bool :=
  targetEntryList.all (fun te => te.resjunk || (exprType te.expr).binaryOk)

/-- Column loop of BuildReadIntermediateResultsQuery (recursive_planning.c
lines 2470-2526): walk the target entries, skip resjunk columns, collect
the column definition list (names and types) and build the output target
list, renaming a column positionally when the caller supplied enough
column aliases and keeping the original name otherwise.  `columnNumber`
is 1-based as in the source. -/
def birqColumns (columnAliasList : List String) (columnNumber : Nat) :
    List TargetEntry → List String × List Ty × List TargetEntry
  | [] => ([], [], [])
  | .mk e columnName resjunk :: rest =>
    if resjunk then birqColumns columnAliasList columnNumber rest
    else
      let columnType := exprType e
      let restCols := birqColumns columnAliasList (columnNumber + 1) rest
      let resname :=
        if columnAliasList.length ≥ columnNumber
        then columnAliasList.getD (columnNumber - 1) ""
        else columnName
      (columnName :: restCols.1, columnType :: restCols.2.1,
       .mk (.var 0 columnType) resname false :: restCols.2.2)

/-- BuildReadIntermediateResultsQuery (recursive_planning.c lines
2455-2592): a single-relation SELECT over the read_intermediate_result
table function, whose funcexpr takes the result id constant and the
copy-format constant and whose column definition list mirrors the
non-junk target entries.  Typmods and collations of the column
definition list and the Var numbering details are elided. -/
def BuildReadIntermediateResultsQuery (targetEntryList : List TargetEntry)
    (columnAliasList : List String) (resultId : String)
    (useBinaryCopyFormat : Bool) : Query :=
  let cols := birqColumns columnAliasList 1 targetEntryList
  let copyFormat := if useBinaryCopyFormat then CopyFormat.binary else CopyFormat.text
  Query.mk .select false []
    [.functionRte false false
        (.readIntermediateResult resultId copyFormat cols.1 cols.2.1)]
    (.fromExpr [.rangeTblRef 1] none)
    cols.2.2 [] none none

/-- BuildSubPlanResultQuery (recursive_planning.c lines 2268-2286). -/
def BuildSubPlanResultQuery (targetEntryList : List TargetEntry)
    (columnAliasList : List String) (resultId : String) : Query :=
  BuildReadIntermediateResultsQuery targetEntryList columnAliasList resultId
    (CanUseBinaryCopyFormatForTargetList targetEntryList)

/-- DistributedSubPlan: the subplan id together with the planned query
fragment.  The `plan` field of the C structure is the external
single-node optimizer's output on `subPlanQuery` and is abstracted; the
model records the query itself and whether the planner was invoked with
CURSOR_OPT_FORCE_DISTRIBUTED (recursive_planning.c lines 1612-1635). -/
structure DistributedSubPlan where
  subPlanId : Nat
  subPlanQuery : Query
  forceDistributedPlanning : Bool

/-- RecursivePlanningContextInternal (recursive_planning.c lines 100-107);
the planner restriction context handle is replaced by explicit oracle
parameters where consumed. -/
structure RecursivePlanningContext where
  level : Nat
  planId : Nat
  allDistributionKeysInQueryAreEqual : Bool
  subPlanList : List DistributedSubPlan

/-- CreateDistributedSubPlan (recursive_planning.c lines 1612-1635). -/
def CreateDistributedSubPlan (subPlanId : Nat) (subPlanQuery : Query) : DistributedSubPlan :=
  { subPlanId := subPlanId
    subPlanQuery := subPlanQuery
    forceDistributedPlanning := ContainsReadIntermediateResultFunction subPlanQuery }

/-- RecursivelyPlanSubquery (recursive_planning.c lines 1549-1604).  The
in-place overwrite `*subquery = *resultQuery` is modelled by returning
the replacement query; the Bool result is the C return value. -/
def RecursivelyPlanSubquery (subquery : Query)
    (planningContext : RecursivePlanningContext) :
    Bool × Query × RecursivePlanningContext :=
  let planId := planningContext.planId
  if ContainsReferencesToOuterQuery subquery then
    (false, subquery, planningContext)
  else
    let subPlanId := planningContext.subPlanList.length + 1
    let subPlan := CreateDistributedSubPlan subPlanId subquery
    let planningContext' :=
      { planningContext with
          subPlanList := planningContext.subPlanList ++ [subPlan] }
    let resultId := GenerateResultId planId subPlanId
    let resultQuery := BuildSubPlanResultQuery subquery.targetList [] resultId
    (true, resultQuery, planningContext')

/- ---------------------------------------------------------------------
Section 6: the CTE materializer, RecursivelyPlanCTEs
(recursive_planning.c lines 1120-1256).

The C function first collects, through CteReferenceListWalker, the list
of RTE_CTE entries whose pointers it later mutates in place.  The model
threads that collected list as explicit state: the loop receives the
list and returns its updated entries.  copyObject on the result query is
a full structural clone; in the pure model the clone is the same value,
and which of the two assignment paths ran is recorded in the
`viaCopyObject` flag of the receiving subquery RTE.
--------------------------------------------------------------------- -/

def copyObject (q : Query) : Query := q

/-- The per-CTE rewrite loop (recursive_planning.c lines 1205-1243): walk
the collected reference list, skip entries already turned into
RTE_SUBQUERY by an earlier iteration, and rewrite every remaining
RTE_CTE naming this CTE into a subquery RTE reading the result: the
first occurrence receives the result query itself, subsequent ones a
copyObject clone.  `replacedCtesCount` threads the counter. -/
def replaceCteReferences (cteName : String) (resultQuery : Query)
    (replacedCtesCount : Nat) :
    List RangeTblEntry → List RangeTblEntry
  | [] => []
  | rte :: rest =>
    match rte with
    | .cteRte ctename _ =>
        if ctename = cteName then
          (if replacedCtesCount = 0 then
             RangeTblEntry.subqueryRte resultQuery false
           else
             RangeTblEntry.subqueryRte (copyObject resultQuery) true) ::
          replaceCteReferences cteName resultQuery (replacedCtesCount + 1) rest
        else rte :: replaceCteReferences cteName resultQuery replacedCtesCount rest
    | _ => rte :: replaceCteReferences cteName resultQuery replacedCtesCount rest

/-- The foreach(cteCell, query->cteList) loop of RecursivelyPlanCTEs
(recursive_planning.c lines 1143-1246), acting on the collected
reference list and the accumulating subplan list. -/
def RecursivelyPlanCTEsLoop (planId : Nat) :
    List CommonTableExpr → List RangeTblEntry → List DistributedSubPlan →
    Except DeferredErrorMessage (List RangeTblEntry × List DistributedSubPlan)
  | [], cteReferenceList, subPlanList => .ok (cteReferenceList, subPlanList)
  | cte :: rest, cteReferenceList, subPlanList =>
    let subquery := cte.ctequery
    if ContainsReferencesToOuterQuery subquery then
      .error ⟨.featureNotSupported,
              "CTEs that refer to other subqueries are not supported in multi-shard queries"⟩
    else if cte.cterefcount = 0 ∧ subquery.commandType = .select then
      RecursivelyPlanCTEsLoop planId rest cteReferenceList subPlanList
    else
      let subPlanId := subPlanList.length + 1
      let subPlan := CreateDistributedSubPlan subPlanId subquery
      let subPlanList' := subPlanList ++ [subPlan]
      let resultId := GenerateResultId planId subPlanId
      let cteTargetList :=
        if subquery.returningList.isEmpty then subquery.targetList
        else subquery.returningList
      let resultQuery :=
        BuildSubPlanResultQuery cteTargetList cte.aliascolnames resultId
      RecursivelyPlanCTEsLoop planId rest
        (replaceCteReferences cte.ctename resultQuery 0 cteReferenceList)
        subPlanList'

/-- RecursivelyPlanCTEs (recursive_planning.c lines 1120-1256).  Takes the
query, the reference list collected by CteReferenceListWalker, and the
planning context; returns the query with its cteList cleared, the
updated reference list and the extended context, or the deferred error. -/
def RecursivelyPlanCTEs (query : Query) (cteReferenceList : List RangeTblEntry)
    (planningContext : RecursivePlanningContext) :
    Except DeferredErrorMessage
      (Query × List RangeTblEntry × RecursivePlanningContext) :=
  if query.cteList.isEmpty then
    .ok (query, cteReferenceList, planningContext)
  else if query.hasRecursive then
    .error ⟨.featureNotSupported,
            "recursive CTEs are only supported when they contain a filter on the distribution column"⟩
  else
    match RecursivelyPlanCTEsLoop planningContext.planId query.cteList
            cteReferenceList planningContext.subPlanList with
    | .error e => .error e
    | .ok (cteReferenceList', subPlanList') =>
        .ok (query.setCteList [], cteReferenceList',
             { planningContext with subPlanList := subPlanList' })

/- ---------------------------------------------------------------------
Section 7: wrapping table functions in subqueries
(recursive_planning.c lines 2024-2250).
--------------------------------------------------------------------- -/

/-- ShouldTransformRTE (recursive_planning.c lines 2236-2250): wrap only
function RTEs that are not LATERAL and have no WITH ORDINALITY clause. -/
def ShouldTransformRTE : RangeTblEntry → Bool
  | .functionRte lateral funcordinality _ => !lateral && !funcordinality
  | _ => false

/-- TransformFunctionRTE (recursive_planning.c lines 2067-2226): turn a
function RTE into a subquery RTE over (SELECT * FROM fnc() f), the copied
function RTE being the single relation of the new subquery.  The target
list is built from the function's column names; the composite-type
tupleDesc branch (a catalog lookup) is represented by the same
name-driven construction, and per-column Var numbering is elided. -/
def TransformFunctionRTE (rangeTblEntry : RangeTblEntry) : RangeTblEntry :=
  match rangeTblEntry with
  | .functionRte _ _ call =>
      let columns : List (String × Ty) :=
        match call with
        | .userFunction erefColnames funcresulttype =>
            erefColnames.map (fun columnName => (columnName, funcresulttype))
        | .readIntermediateResult _ _ funcColNames funcColTypes =>
            funcColNames.zip funcColTypes
      .subqueryRte
        (Query.mk .select false [] [rangeTblEntry]
          (.fromExpr [.rangeTblRef 1] none)
          (columns.map (fun c => TargetEntry.mk (.var 0 c.2) c.1 false))
          [] none none)
        false
  | rte => rte

/-- WrapFunctionsInSubqueries (recursive_planning.c lines 2024-2058):
skip queries whose range table has fewer than two entries, otherwise
transform every RTE that ShouldTransformRTE accepts. -/
def WrapFunctionsInSubqueries (query : Query) : Query :=
  if query.rtable.length < 2 then query
  else
    query.setRtable
      (query.rtable.map (fun rte =>
        if ShouldTransformRTE rte then TransformFunctionRTE rte else rte))

/- ---------------------------------------------------------------------
Section 8: set operations (recursive_planning.c lines 1392-1479).
--------------------------------------------------------------------- -/

/-- Boolean-valued oracles for the external colocation / union-pushdown
analysis, consumed by ShouldRecursivelyPlanSetOperation exactly where the
C code consults DeferErrorIfUnsupportedUnionQuery and
SafeToPushdownUnionSubquery (both live outside the provided sources). -/
structure PlannerOracles where
  deferErrorIfUnsupportedUnionQuery : Query → Bool
  safeToPushdownUnionSubquery : Query → Bool

/-- ShouldRecursivelyPlanSetOperation (recursive_planning.c lines
1392-1441).  A leaf at the root of setOperations cannot occur in a parsed
query; the model treats it like a non-UNION operation. -/
def ShouldRecursivelyPlanSetOperation (query : Query)
    (context : RecursivePlanningContext) (oracles : PlannerOracles) : Bool :=
  match query.setOperations with
  | none => false
  | some setOperations =>
    let isUnionStmt : Bool :=
      match setOperations with
      | .setOpStmt op _ _ => op = .union
      | .rtRef _ => false
    if context.level = 0 then true
    else if !isUnionStmt then true
    else if oracles.deferErrorIfUnsupportedUnionQuery query then true
    else if !oracles.safeToPushdownUnionSubquery query then true
    else false

/-- RecursivelyPlanSetOperations (recursive_planning.c lines 1449-1479):
descend through the set-operation tree and recursively plan every leaf
subquery that contains a distributed table.  The in-place update of the
leaf RTE's subquery is modelled by rewriting the query's range table. -/
def RecursivelyPlanSetOperations (query : Query) (node : SetOpNode)
    (context : RecursivePlanningContext) : Query × RecursivePlanningContext :=
  match node with
  | .setOpStmt _ larg rarg =>
      let step := RecursivelyPlanSetOperations query larg context
      RecursivelyPlanSetOperations step.1 rarg step.2
  | .rtRef rtindex =>
      match rt_fetch rtindex query.rtable with
      | .subqueryRte subquery viaCopy =>
          if FindNodeMatchingCheckFunction IsDistributedTableRTE subquery then
            let planned := RecursivelyPlanSubquery subquery context
            (query.setRtable
               (query.rtable.set (rtindex - 1) (.subqueryRte planned.2.1 viaCopy)),
             planned.2.2)
          else (query, context)
      | _ => (query, context)

/- ---------------------------------------------------------------------
Section 9: subqueries in expressions; the HAVING stage
(recursive_planning.c lines 323-333 and 1089-1109).
--------------------------------------------------------------------- -/

/-- RecursivelyPlanAllSubqueries (recursive_planning.c lines 1089-1109):
descend through an expression and recursively plan every (maximal)
subquery that contains at least one Citus table; a visited subquery is
not descended into, whether planned or not. -/
def RecursivelyPlanAllSubqueries (node : Expr)
    (planningContext : RecursivePlanningContext) :
    Expr × RecursivePlanningContext :=
  match node with
  | .sublink subselect ty =>
      if FindNodeMatchingCheckFunctionInRangeTableList IsCitusTableRTE
           subselect.rtable then
        let planned := RecursivelyPlanSubquery subselect planningContext
        (.sublink planned.2.1 ty, planned.2.2)
      else (.sublink subselect ty, planningContext)
  | .opExpr larg rarg ty =>
      let plannedLeft := RecursivelyPlanAllSubqueries larg planningContext
      let plannedRight := RecursivelyPlanAllSubqueries rarg plannedLeft.2
      (.opExpr plannedLeft.1 plannedRight.1 ty, plannedRight.2)
  | e => (e, planningContext)

/-- The HAVING block of RecursivelyPlanSubqueriesAndCTEs
(recursive_planning.c lines 323-333): reject a HAVING clause whose
sublinks reference the outer query with a deferred error, otherwise
recursively plan all subqueries inside it. -/
def planHavingClauseStage (query : Query)
    (context : RecursivePlanningContext) :
    Except DeferredErrorMessage (Query × RecursivePlanningContext) :=
  match query.havingQual with
  | none => .ok (query, context)
  | some havingQual =>
    if NodeContainsSubqueryReferencingOuterQuery havingQual then
      .error ⟨.featureNotSupported,
              "Subqueries in HAVING cannot refer to outer query"⟩
    else
      let planned := RecursivelyPlanAllSubqueries havingQual context
      .ok (query.setHavingQual (some planned.1), planned.2)

/- ---------------------------------------------------------------------
Section 10: the outer-join recurring resolver
(recursive_planning.c lines 691-1013).
--------------------------------------------------------------------- -/

/-- IsRTERefRecurring (recursive_planning.c lines 1005-1013): an rte
reference is recurring iff the referenced entry does not (transitively)
point to a distributed table. -/
def IsRTERefRecurring (rtindex : Nat) (query : Query) : Bool :=
  !(FindNodeMatchingCheckFunctionInRangeTableList IsDistributedTableRTE
      [rt_fetch rtindex query.rtable])

/-- Modelled from the spec: WrapRteRelationIntoSubquery
(query_colocation_checker.c, outside the provided sources) converts a
bare relation RTE into a one-relation subquery selecting the required
columns ("a subquery that selects only the columns actually required
downstream plus any pushdown-eligible filters").  The required-column
and filter computations consume the external restriction oracle and are
elided; the subquery shape over the original relation is kept. -/
def WrapRteRelationIntoSubquery (rangeTableEntry : RangeTblEntry) : Query :=
  Query.mk .select false [] [rangeTableEntry]
    (.fromExpr [.rangeTblRef 1] none) [] [] none none

/-- structural clone of an RTE (copyObject in the C source). -/
def copyObjectRte (rte : RangeTblEntry) : RangeTblEntry := rte

/-- CreateOuterSubquery (recursive_planning.c lines 1889-1920): one more
subquery layer over the given RTE, re-exposing the columns under their
original names (the outer target list; its contents come from the
external CreateAllTargetListForRelation and are elided). -/
def CreateOuterSubquery (rangeTableEntry : RangeTblEntry)
    (outerSubqueryTargetList : List TargetEntry) : Query :=
  Query.mk .select false [] [copyObjectRte rangeTableEntry]
    (.fromExpr [.rangeTblRef 1] none) outerSubqueryTargetList [] none none

/-- ReplaceRTERelationWithRteSubquery (recursive_planning.c lines
1797-1858): wrap the relation into a subquery, forcefully plan that
subquery recursively (the source raises an internal error if that
fails, which cannot happen for a freshly wrapped relation), then wrap
the planned result one level deeper with CreateOuterSubquery.  The
pushed-down filter computation (external restriction oracle) is elided. -/
def ReplaceRTERelationWithRteSubquery (rangeTableEntry : RangeTblEntry)
    (context : RecursivePlanningContext) :
    RangeTblEntry × RecursivePlanningContext :=
  let subquery := WrapRteRelationIntoSubquery rangeTableEntry
  let planned := RecursivelyPlanSubquery subquery context
  let outerSubquery := CreateOuterSubquery (.subqueryRte planned.2.1 false) []
  (.subqueryRte outerSubquery false, planned.2.2)

/-- RecursivelyPlanDistributedJoinNode (recursive_planning.c lines
862-977): recursively plan a distributed node that sits on the inner
side of an outer join whose other side is recurring.  Join sub-trees are
handled element-wise; recurring rte references are skipped; relation
RTEs are wrapped and planned; subquery RTEs are planned directly (and
stay in place when they reference the outer query).  The ereport(ERROR)
branches for unexpected node / RTE kinds are unreachable for the nodes
this function is called on and are modelled as the identity. -/
def RecursivelyPlanDistributedJoinNode (node : JoinTreeNode) (query : Query)
    (context : RecursivePlanningContext) : Query × RecursivePlanningContext :=
  match node with
  | .joinExpr _ larg rarg _ =>
      let step := RecursivelyPlanDistributedJoinNode larg query context
      RecursivelyPlanDistributedJoinNode rarg step.1 step.2
  | .fromExpr _ _ => (query, context)
  | .rangeTblRef rtindex =>
      if IsRTERefRecurring rtindex query then (query, context)
      else
        match rt_fetch rtindex query.rtable with
        | .relation category =>
            let replaced :=
              ReplaceRTERelationWithRteSubquery (.relation category) context
            (query.setRtable (query.rtable.set (rtindex - 1) replaced.1),
             replaced.2)
        | .subqueryRte subquery viaCopy =>
            let planned := RecursivelyPlanSubquery subquery context
            (query.setRtable
               (query.rtable.set (rtindex - 1) (.subqueryRte planned.2.1 viaCopy)),
             planned.2.2)
        | _ => (query, context)

mutual

/-- RecursivelyPlanRecurringTupleOuterJoinWalker (recursive_planning.c
lines 691-842): post-order walk of the join tree; returns whether the
node is recurring and forces the distributed side of an outer join whose
other side is recurring through recursive planning. -/
def RecursivelyPlanRecurringTupleOuterJoinWalker (node : JoinTreeNode)
    (query : Query) (context : RecursivePlanningContext) :
    Bool × Query × RecursivePlanningContext :=
  match node with
  | .fromExpr fromlist _ =>
      let walked := rptojwFromList fromlist query context
      (false, walked.1, walked.2)
  | .joinExpr jointype larg rarg _ =>
      let leftWalk := RecursivelyPlanRecurringTupleOuterJoinWalker larg query context
      let leftNodeRecurs := leftWalk.1
      let rightWalk :=
        RecursivelyPlanRecurringTupleOuterJoinWalker rarg leftWalk.2.1 leftWalk.2.2
      let rightNodeRecurs := rightWalk.1
      match jointype with
      | .left =>
          if leftNodeRecurs && !rightNodeRecurs then
            let planned :=
              RecursivelyPlanDistributedJoinNode rarg rightWalk.2.1 rightWalk.2.2
            (leftNodeRecurs, planned.1, planned.2)
          else (leftNodeRecurs, rightWalk.2.1, rightWalk.2.2)
      | .right =>
          if !leftNodeRecurs && rightNodeRecurs then
            let planned :=
              RecursivelyPlanDistributedJoinNode larg rightWalk.2.1 rightWalk.2.2
            (rightNodeRecurs, planned.1, planned.2)
          else (rightNodeRecurs, rightWalk.2.1, rightWalk.2.2)
      | .full =>
          if leftNodeRecurs && !rightNodeRecurs then
            let planned :=
              RecursivelyPlanDistributedJoinNode rarg rightWalk.2.1 rightWalk.2.2
            (leftNodeRecurs || rightNodeRecurs, planned.1, planned.2)
          else if !leftNodeRecurs && rightNodeRecurs then
            let planned :=
              RecursivelyPlanDistributedJoinNode larg rightWalk.2.1 rightWalk.2.2
            (leftNodeRecurs || rightNodeRecurs, planned.1, planned.2)
          else (leftNodeRecurs || rightNodeRecurs, rightWalk.2.1, rightWalk.2.2)
      | .inner =>
          (leftNodeRecurs && rightNodeRecurs, rightWalk.2.1, rightWalk.2.2)
  | .rangeTblRef rtindex =>
      (IsRTERefRecurring rtindex query, query, context)

def rptojwFromList (fromlist : List JoinTreeNode) (query : Query)
    (context : RecursivePlanningContext) : Query × RecursivePlanningContext :=
  match fromlist with
  | [] => (query, context)
  | fromElement :: rest =>
      let walked :=
        RecursivelyPlanRecurringTupleOuterJoinWalker fromElement query context
      rptojwFromList rest walked.2.1 walked.2.2

end

/- ---------------------------------------------------------------------
Section 11: the process-wide recursive planning depth
(recursive_planning.c lines 110, 208-261, 2614-2618).
--------------------------------------------------------------------- -/

/-- GeneratingSubplans (recursive_planning.c lines 2614-2618), over an
explicit depth value standing for the static recursivePlanningDepth. -/
def GeneratingSubplans (recursivePlanningDepth : Nat) : Bool :=
  recursivePlanningDepth > 0

/-- Depth bookkeeping of one GenerateSubplansForSubqueriesAndCTEs call
(recursive_planning.c lines 208-261): the counter after the initial
increment, the counter when the call finishes (normal return or the
decrement placed before RaiseDeferredError), and whether the deferred
error path was taken. -/
structure DepthTrace where
  depthDuringPlanning : Nat
  depthOnFinish : Nat
  raisedDeferredError : Bool

/-- GenerateSubplansForSubqueriesAndCTEs, restricted to its manipulation
of recursivePlanningDepth.  The recursive planning proper is abstracted
to its outcome (`planningError`), which decides between the
deferred-error path (decrement, then RaiseDeferredError) and the normal
path (decrement, then return). -/
def GenerateSubplansDepthTrace (initialDepth : Nat)
    (planningError : Option DeferredErrorMessage) : DepthTrace :=
  let depthInPlanning := initialDepth + 1
  match planningError with
  | some _ =>
      { depthDuringPlanning := depthInPlanning
        depthOnFinish := depthInPlanning - 1
        raisedDeferredError := true }
  | none =>
      { depthDuringPlanning := depthInPlanning
        depthOnFinish := depthInPlanning - 1
        raisedDeferredError := false }

/- ---------------------------------------------------------------------
Section 12: observers and invariants used by the theorems.
--------------------------------------------------------------------- -/

/-- A query is a result-read fragment for `resultId` iff its single
range table entry is the read_intermediate_result function call for that
result id (the shape produced by BuildReadIntermediateResultsQuery). -/
def readsIntermediateResult (resultId : String) (q : Query) : Bool :=
  match q.rtable with
  | [.functionRte _ _ (.readIntermediateResult rid _ _ _)] => rid = resultId
  | _ => false

/-- The subquery RTEs of a range table list that read the given
intermediate result, in order, each with its viaCopyObject flag. -/
def resultReadEntries (resultId : String) (rtes : List RangeTblEntry) :
    List (Query × Bool) :=
  rtes.filterMap (fun rte =>
    match rte with
    | .subqueryRte sub viaCopy =>
        if readsIntermediateResult resultId sub then some (sub, viaCopy) else none
    | _ => none)

/-- Number of RTE_CTE entries naming the given CTE. -/
def countCteRtesNamed (cteName : String) (rtes : List RangeTblEntry) : Nat :=
  (rtes.filter (fun rte =>
    match rte with
    | .cteRte name _ => name = cteName
    | _ => false)).length

/-- The skip condition of the CTE loop: zero references and a plain
SELECT body (recursive_planning.c lines 1161-1169). -/
def cteIsSkipped (cte : CommonTableExpr) : Bool :=
  cte.cterefcount == 0 &&
  (match cte.ctequery.commandType with
   | .select => true
   | _ => false)

/-- Number of CTEs of a list that get materialized into subplans. -/
def countMaterializedCtes (ctes : List CommonTableExpr) : Nat :=
  (ctes.filter (fun cte => !cteIsSkipped cte)).length

/-- The subplan-id assignment invariant: the i-th subplan of the list
(0-based) carries subplan id i+1. -/
def SubPlanIdsAssignedSequentially (subPlanList : List DistributedSubPlan) : Prop :=
  ∀ i (h : i < subPlanList.length), (subPlanList.get ⟨i, h⟩).subPlanId = i + 1

/- ---------------------------------------------------------------------
Section 13: concrete inputs used by counterexamples and witnesses.
--------------------------------------------------------------------- -/

def tyInt : Ty := ⟨23, true⟩

def tyMoney : Ty := ⟨790, false⟩

/-- SELECT 1 (no relations at all). -/
def selectOneQuery : Query :=
  Query.mk .select false [] [] (.fromExpr [] none)
    [.mk (.const tyInt) "one" false] [] none none

/-- SELECT x FROM local_table (a plain postgres table; no Citus table). -/
def localOnlyQuery : Query :=
  Query.mk .select false [] [.relation .postgresLocalTable]
    (.fromExpr [.rangeTblRef 1] none)
    [.mk (.var 0 tyInt) "x" false] [] none none

/-- SELECT a FROM dist_table (a distributed table). -/
def distQuery : Query :=
  Query.mk .select false [] [.relation .distributedTable]
    (.fromExpr [.rangeTblRef 1] none)
    [.mk (.var 0 tyInt) "a" false] [] none none

/-- A subquery whose WHERE clause references the enclosing query
(varlevelsup 1 seen from inside the subquery). -/
def correlatedQuery : Query :=
  Query.mk .select false [] [.relation .distributedTable]
    (.fromExpr [.rangeTblRef 1] (some (.var 1 tyInt)))
    [.mk (.var 0 tyInt) "a" false] [] none none

def emptyPlanningContext : RecursivePlanningContext :=
  { level := 0, planId := 3, allDistributionKeysInQueryAreEqual := false
    subPlanList := [] }

/-- HAVING (SELECT x FROM local_table) > 0, carried by a query over a
distributed table: the having sublink's subquery has no Citus table. -/
def havingLocalSublinkQuery : Query :=
  Query.mk .select false [] [.relation .distributedTable]
    (.fromExpr [.rangeTblRef 1] none)
    [.mk (.var 0 tyInt) "a" false] []
    (some (.sublink localOnlyQuery tyInt)) none

/-- HAVING (SELECT a FROM dist_table) > 0. -/
def havingDistSublinkQuery : Query :=
  Query.mk .select false [] [.relation .distributedTable]
    (.fromExpr [.rangeTblRef 1] none)
    [.mk (.var 0 tyInt) "a" false] []
    (some (.sublink distQuery tyInt)) none

/-- HAVING with a sublink whose subquery references the enclosing query. -/
def havingCorrelatedSublinkQuery : Query :=
  Query.mk .select false [] [.relation .distributedTable]
    (.fromExpr [.rangeTblRef 1] none)
    [.mk (.var 0 tyInt) "a" false] []
    (some (.sublink correlatedQuery tyInt)) none

/-- WITH c AS (SELECT a FROM dist_table) SELECT ... FROM c x JOIN c y:
the CTE is referenced twice. -/
def cteTwiceQuery : Query :=
  Query.mk .select false
    [.mk "c" 2 [] distQuery]
    [.cteRte "c" 0, .cteRte "c" 0]
    (.fromExpr [.rangeTblRef 1, .rangeTblRef 2] none)
    [.mk (.var 0 tyInt) "a" false] [] none none

/-- WITH c AS (SELECT 1) SELECT 1: an unreferenced SELECT CTE. -/
def cteUnreferencedQuery : Query :=
  Query.mk .select false
    [.mk "c" 0 [] selectOneQuery]
    []
    (.fromExpr [] none)
    [.mk (.const tyInt) "one" false] [] none none

/-- (SELECT a FROM dist_table) UNION (SELECT a FROM dist_table), as a
top-level set operation over two subquery RTEs. -/
def unionQuery : Query :=
  Query.mk .select false []
    [.subqueryRte distQuery false, .subqueryRte distQuery false]
    (.fromExpr [] none)
    [.mk (.var 0 tyInt) "a" false] [] none
    (some (.setOpStmt .union (.rtRef 1) (.rtRef 2)))

/-- SELECT * FROM ref LEFT JOIN dist ON ...: a recurring (reference
table) left side outer-joined with a distributed right side. -/
def refLeftJoinDistQuery : Query :=
  Query.mk .select false []
    [.relation .referenceTable, .relation .distributedTable]
    (.fromExpr
      [.joinExpr .left (.rangeTblRef 1) (.rangeTblRef 2) none] none)
    [.mk (.var 0 tyInt) "id" false] [] none none

/-- A two-entry range table with a wrappable function RTE. -/
def functionJoinQuery : Query :=
  Query.mk .select false []
    [.relation .distributedTable,
     .functionRte false false (.userFunction ["f1"] tyInt)]
    (.fromExpr [.rangeTblRef 1, .rangeTblRef 2] none)
    [.mk (.var 0 tyInt) "a" false] [] none none

/-- The 1-based range table indexes of the leaves of a set-operation
tree, in visit order. -/
def setOpLeafIndexes : SetOpNode → List Nat
  | .setOpStmt _ larg rarg => setOpLeafIndexes larg ++ setOpLeafIndexes rarg
  | .rtRef rtindex => [rtindex]

/- ---------------------------------------------------------------------
Section 14: theorems.  Helper lemmas on the decimal rendering first.
--------------------------------------------------------------------- -/

theorem digitChar_val : ∀ d < 10, (Nat.digitChar d).toNat - 48 = d := by
  decide

theorem charsToNat_decimalCharsCore (fuel n : Nat) (h : n < fuel) :
    charsToNat (decimalCharsCore n fuel) = n := by
  induction fuel generalizing n with
  | zero => omega
  | succ fuel ih =>
    by_cases h10 : n < 10
    · simp [decimalCharsCore, h10, charsToNat, digitChar_val n h10]
    · have hdiv : n / 10 < fuel := by
        have := Nat.div_lt_self (by omega : 0 < n) (by omega : 1 < 10)
        omega
      simp only [decimalCharsCore, if_neg h10]
      simp only [charsToNat, List.foldl_append, List.foldl_cons, List.foldl_nil]
      have hrec : charsToNat (decimalCharsCore (n / 10) fuel) = n / 10 := ih _ hdiv
      simp only [charsToNat] at hrec
      rw [hrec, digitChar_val (n % 10) (Nat.mod_lt _ (by omega))]
      omega

theorem decimalChars_injective : Function.Injective decimalChars := by
  intro a b h
  have ha : charsToNat (decimalChars a) = a :=
    charsToNat_decimalCharsCore (a + 1) a (by omega)
  have hb : charsToNat (decimalChars b) = b :=
    charsToNat_decimalCharsCore (b + 1) b (by omega)
  rw [h] at ha
  omega

theorem GenerateResultId_injective_right (planId : Nat) :
    Function.Injective (GenerateResultId planId) := by
  intro a b h
  unfold GenerateResultId at h
  injection h with h
  have h2 := List.append_cancel_left h
  injection h2 with _ h3
  exact decimalChars_injective h3

theorem subPlanIds_seq_append (l : List DistributedSubPlan) (q : Query)
    (h : SubPlanIdsAssignedSequentially l) :
    SubPlanIdsAssignedSequentially
      (l ++ [CreateDistributedSubPlan (l.length + 1) q]) := by
  intro i hi
  simp only [List.length_append, List.length_singleton] at hi
  rcases Nat.lt_or_ge i l.length with hlt | hge
  · have := h i hlt
    simp only [List.get_eq_getElem] at this ⊢
    rwa [List.getElem_append_left hlt]
  · have hieq : i = l.length := by omega
    subst hieq
    simp [CreateDistributedSubPlan]

theorem recursivelyPlanSubquery_ids_sequential
    (q : Query) (ctx : RecursivePlanningContext)
    (h : SubPlanIdsAssignedSequentially ctx.subPlanList) :
    SubPlanIdsAssignedSequentially
      (RecursivelyPlanSubquery q ctx).2.2.subPlanList := by
  unfold RecursivelyPlanSubquery
  by_cases houter : ContainsReferencesToOuterQuery q
  · simpa [houter] using h
  · simpa [houter] using subPlanIds_seq_append ctx.subPlanList q h

theorem recursivelyPlanCTEsLoop_ids_sequential (planId : Nat)
    (ctes : List CommonTableExpr) (refs : List RangeTblEntry)
    (subs : List DistributedSubPlan)
    (h : SubPlanIdsAssignedSequentially subs)
    (refs' : List RangeTblEntry) (subs' : List DistributedSubPlan)
    (hrun : RecursivelyPlanCTEsLoop planId ctes refs subs = .ok (refs', subs')) :
    SubPlanIdsAssignedSequentially subs' := by
  induction ctes generalizing refs subs with
  | nil =>
    simp only [RecursivelyPlanCTEsLoop] at hrun
    cases hrun
    exact h
  | cons cte rest ih =>
    simp only [RecursivelyPlanCTEsLoop] at hrun
    by_cases houter : ContainsReferencesToOuterQuery cte.ctequery
    · simp [houter] at hrun
    · by_cases hskip : cte.cterefcount = 0 ∧ cte.ctequery.commandType = .select
      · rw [if_neg (by simp [houter]), if_pos hskip] at hrun
        exact ih refs subs h hrun
      · rw [if_neg (by simp [houter]), if_neg hskip] at hrun
        exact ih _ _ (subPlanIds_seq_append subs cte.ctequery h) hrun

theorem subPlanIds_seq_range (l : List DistributedSubPlan)
    (h : SubPlanIdsAssignedSequentially l) :
    l.map DistributedSubPlan.subPlanId = List.range' 1 l.length := by
  apply List.ext_getElem
  · simp
  · intro i h1 h2
    simp only [List.getElem_map, List.getElem_range']
    have := h i (by simpa using h1)
    simp only [List.get_eq_getElem] at this
    omega

theorem subPlanIds_seq_resultIds_nodup (planId : Nat)
    (l : List DistributedSubPlan)
    (h : SubPlanIdsAssignedSequentially l) :
    (l.map (fun sp => GenerateResultId planId sp.subPlanId)).Nodup := by
  have : l.map (fun sp => GenerateResultId planId sp.subPlanId) =
      (l.map DistributedSubPlan.subPlanId).map (GenerateResultId planId) := by
    simp [List.map_map]
  rw [this, subPlanIds_seq_range l h]
  exact List.Nodup.map (GenerateResultId_injective_right planId)
    (List.nodup_range' 1 l.length)

/-- C1: at both subplan creation sites (RecursivelyPlanSubquery and the
CTE loop) the next subplan id is 1 + the current length of the subplan
list, so along any top-level planning call the subplan list always
satisfies SubPlanIdsAssignedSequentially; consequently the ids are
exactly 1..n in creation order (strictly increasing, no gaps, no reuse)
and the result identifiers "<planId>_<subPlanId>" (decimal) are pairwise
distinct. -/
theorem claim_C1_subplan_ids (planId : Nat) :
    (∀ (q : Query) (ctx : RecursivePlanningContext),
       SubPlanIdsAssignedSequentially ctx.subPlanList →
       SubPlanIdsAssignedSequentially
         (RecursivelyPlanSubquery q ctx).2.2.subPlanList) ∧
    (∀ (ctes : List CommonTableExpr) (refs : List RangeTblEntry)
       (subs : List DistributedSubPlan)
       (refs' : List RangeTblEntry) (subs' : List DistributedSubPlan),
       SubPlanIdsAssignedSequentially subs →
       RecursivelyPlanCTEsLoop planId ctes refs subs = .ok (refs', subs') →
       SubPlanIdsAssignedSequentially subs') ∧
    (∀ l : List DistributedSubPlan,
       SubPlanIdsAssignedSequentially l →
       l.map DistributedSubPlan.subPlanId = List.range' 1 l.length ∧
       (l.map (fun sp => GenerateResultId planId sp.subPlanId)).Nodup) := by
  refine ⟨?_, ?_, ?_⟩
  · intro q ctx h
    exact recursivelyPlanSubquery_ids_sequential q ctx h
  · intro ctes refs subs refs' subs' h hrun
    exact recursivelyPlanCTEsLoop_ids_sequential planId ctes refs subs h refs' subs' hrun
  · intro l h
    exact ⟨subPlanIds_seq_range l h, subPlanIds_seq_resultIds_nodup planId l h⟩

theorem claim_C1_subplan_ids_witness :
    SubPlanIdsAssignedSequentially
      (RecursivelyPlanSubquery distQuery emptyPlanningContext).2.2.subPlanList ∧
    (∃ refs' subs',
       RecursivelyPlanCTEsLoop 3 cteTwiceQuery.cteList cteTwiceQuery.rtable []
         = .ok (refs', subs') ∧
       SubPlanIdsAssignedSequentially subs') ∧
    ((RecursivelyPlanSubquery distQuery emptyPlanningContext).2.2.subPlanList.map
        DistributedSubPlan.subPlanId = [1]) ∧
    GenerateResultId 3 1 = "3_1" := by
  have hempty : SubPlanIdsAssignedSequentially
      (emptyPlanningContext.subPlanList) := by
    intro i h
    simp [emptyPlanningContext] at h
  have h1 := (claim_C1_subplan_ids 3).1 distQuery emptyPlanningContext hempty
  have hemptyList : SubPlanIdsAssignedSequentially
      ([] : List DistributedSubPlan) := by
    intro i h
    simp at h
  refine ⟨h1, ?_, ?_, by decide⟩
  · refine ⟨_, _, rfl, ?_⟩
    exact (claim_C1_subplan_ids 3).2.1 cteTwiceQuery.cteList cteTwiceQuery.rtable
      [] _ _ hemptyList rfl
  · have := ((claim_C1_subplan_ids 3).2.2 _ h1).1
    rw [this]
    rfl

/-- C7: a subquery that references the enclosing query makes
RecursivelyPlanSubquery return false and change nothing; any other
subquery gets exactly one subplan appended (with id 1 + current length)
and its structure overwritten in place by the result-read query built
from its target list, so index-based references to the RTE stay valid. -/
theorem claim_C7_recursively_plan_subquery (subquery : Query)
    (ctx : RecursivePlanningContext) :
    (ContainsReferencesToOuterQuery subquery = true →
       RecursivelyPlanSubquery subquery ctx = (false, subquery, ctx)) ∧
    (ContainsReferencesToOuterQuery subquery = false →
       RecursivelyPlanSubquery subquery ctx =
         (true,
          BuildSubPlanResultQuery subquery.targetList []
            (GenerateResultId ctx.planId (ctx.subPlanList.length + 1)),
          { ctx with
              subPlanList := ctx.subPlanList ++
                [CreateDistributedSubPlan (ctx.subPlanList.length + 1) subquery] })) := by
  constructor
  · intro h
    simp [RecursivelyPlanSubquery, h]
  · intro h
    simp [RecursivelyPlanSubquery, h]

theorem claim_C7_recursively_plan_subquery_witness :
    RecursivelyPlanSubquery correlatedQuery emptyPlanningContext =
      (false, correlatedQuery, emptyPlanningContext) ∧
    RecursivelyPlanSubquery distQuery emptyPlanningContext =
      (true,
       BuildSubPlanResultQuery distQuery.targetList [] (GenerateResultId 3 1),
       { emptyPlanningContext with
           subPlanList := [CreateDistributedSubPlan 1 distQuery] }) := by
  constructor
  · exact (claim_C7_recursively_plan_subquery correlatedQuery
      emptyPlanningContext).1 rfl
  · exact (claim_C7_recursively_plan_subquery distQuery
      emptyPlanningContext).2 rfl

/-- C10: the process-wide recursive-planning depth is incremented on
entry to GenerateSubplansForSubqueriesAndCTEs and decremented before the
call finishes on both the normal path and the deferred-error path (the
decrement precedes RaiseDeferredError), so GeneratingSubplans reports
true exactly while the call is in progress and the counter returns to
its prior value afterwards. -/
theorem claim_C10_depth_counter (initialDepth : Nat)
    (planningError : Option DeferredErrorMessage) :
    (GenerateSubplansDepthTrace initialDepth planningError).depthDuringPlanning
      = initialDepth + 1 ∧
    GeneratingSubplans
      (GenerateSubplansDepthTrace initialDepth planningError).depthDuringPlanning
      = true ∧
    (GenerateSubplansDepthTrace initialDepth planningError).depthOnFinish
      = initialDepth ∧
    (GenerateSubplansDepthTrace initialDepth planningError).raisedDeferredError
      = planningError.isSome := by
  cases planningError with
  | none =>
    refine ⟨rfl, ?_, rfl, rfl⟩
    simp [GeneratingSubplans, GenerateSubplansDepthTrace]
  | some e =>
    refine ⟨rfl, ?_, rfl, rfl⟩
    simp [GeneratingSubplans, GenerateSubplansDepthTrace]

theorem rtable_setRtable (q : Query) (rt : List RangeTblEntry) :
    (q.setRtable rt).rtable = rt := by
  cases q
  rfl

theorem cteList_setCteList (q : Query) (ctes : List CommonTableExpr) :
    (q.setCteList ctes).cteList = ctes := by
  cases q
  rfl

theorem havingQual_setHavingQual (q : Query) (hq : Option Expr) :
    (q.setHavingQual hq).havingQual = hq := by
  cases q
  rfl

/-- C8: a range table entry is wrapped into its own single-relation
subquery by WrapFunctionsInSubqueries iff the owning query's range table
has at least two entries and the entry is a function RTE that is not
LATERAL and has no WITH ORDINALITY clause. -/
theorem claim_C8_function_wrapping :
    (∀ (query : Query) (i : Nat) (rte : RangeTblEntry),
       query.rtable[i]? = some rte →
       (WrapFunctionsInSubqueries query).rtable[i]? =
         some (if 2 ≤ query.rtable.length ∧ ShouldTransformRTE rte = true
               then TransformFunctionRTE rte else rte)) ∧
    (∀ rte : RangeTblEntry, ShouldTransformRTE rte = true ↔
       ∃ call, rte = .functionRte false false call) ∧
    (∀ (lat funcordinality : Bool) (call : FuncRteCall),
       ∃ targetList,
         TransformFunctionRTE (.functionRte lat funcordinality call) =
           .subqueryRte
             (Query.mk .select false [] [.functionRte lat funcordinality call]
               (.fromExpr [.rangeTblRef 1] none) targetList [] none none)
             false) := by
  refine ⟨?_, ?_, ?_⟩
  · intro query i rte hi
    unfold WrapFunctionsInSubqueries
    by_cases hlen : query.rtable.length < 2
    · have : ¬ (2 ≤ query.rtable.length ∧ ShouldTransformRTE rte = true) := by
        intro hc
        omega
      simp [hlen, this, hi]
    · have h2 : 2 ≤ query.rtable.length := by omega
      rw [if_neg hlen, rtable_setRtable, List.getElem?_map, hi]
      by_cases hstr : ShouldTransformRTE rte = true
      · simp [hstr, h2]
      · simp [hstr]
  · intro rte
    cases rte with
    | functionRte lat ord call =>
        cases lat <;> cases ord <;> simp [ShouldTransformRTE]
    | relation c => simp [ShouldTransformRTE]
    | subqueryRte s v => simp [ShouldTransformRTE]
    | cteRte n l => simp [ShouldTransformRTE]
    | valuesRte => simp [ShouldTransformRTE]
    | joinRte => simp [ShouldTransformRTE]
  · intro lat ord call
    exact ⟨_, rfl⟩

theorem claim_C8_function_wrapping_witness :
    (WrapFunctionsInSubqueries functionJoinQuery).rtable[1]? =
      some (TransformFunctionRTE
        (.functionRte false false (.userFunction ["f1"] tyInt))) ∧
    (WrapFunctionsInSubqueries functionJoinQuery).rtable[0]? =
      some (.relation .distributedTable) := by
  constructor
  · have h := (claim_C8_function_wrapping).1 functionJoinQuery 1
      (.functionRte false false (.userFunction ["f1"] tyInt)) rfl
    rw [h]
    rfl
  · have h := (claim_C8_function_wrapping).1 functionJoinQuery 0
      (.relation .distributedTable) rfl
    rw [h]
    rfl
@[simp] theorem TargetEntry.resjunk_mk (e : Expr) (n : String) (j : Bool) :
    (TargetEntry.mk e n j).resjunk = j := rfl

@[simp] theorem TargetEntry.resname_mk (e : Expr) (n : String) (j : Bool) :
    (TargetEntry.mk e n j).resname = n := rfl

@[simp] theorem TargetEntry.expr_mk (e : Expr) (n : String) (j : Bool) :
    (TargetEntry.mk e n j).expr = e := rfl

theorem birqColumns_resnames (columnAliasList : List String) :
    ∀ (targetEntryList : List TargetEntry) (k : Nat),
      (birqColumns columnAliasList (k + 1) targetEntryList).2.2.map
          TargetEntry.resname =
        (columnAliasList.drop k).take
            (((targetEntryList.filter (fun te => !te.resjunk)).map
                TargetEntry.resname).length) ++
          ((targetEntryList.filter (fun te => !te.resjunk)).map
              TargetEntry.resname).drop (columnAliasList.length - k) := by
  intro targetEntryList
  induction targetEntryList with
  | nil => intro k; simp [birqColumns]
  | cons te rest ih =>
    intro k
    cases te with
    | mk e nm junk =>
      cases junk with
      | true =>
        simpa [birqColumns] using ih k
      | false =>
        by_cases hk : k < columnAliasList.length
        · have hge : columnAliasList.length ≥ k + 1 := by omega
          have hdrop := List.drop_eq_getElem_cons hk
          have hgetD : columnAliasList.getD k "" = columnAliasList[k] := by
            simp [List.getD_eq_getElem?_getD, List.getElem?_eq_getElem hk]
          have hsub : columnAliasList.length - k =
              (columnAliasList.length - (k + 1)) + 1 := by omega
          simp only [birqColumns, TargetEntry.resjunk_mk, Bool.false_eq_true,
            if_false, List.map_cons, ih (k + 1), if_pos hge, hgetD,
            List.filter_cons, Bool.not_false, if_pos, hdrop, hsub,
            List.take_succ_cons, List.cons_append, List.drop_succ_cons,
            TargetEntry.resname_mk, List.length_cons, Nat.add_sub_cancel]
        · have hlt : ¬ columnAliasList.length ≥ k + 1 := by omega
          have hdrop : columnAliasList.drop k = [] :=
            List.drop_eq_nil_of_le (by omega)
          have hdrop1 : columnAliasList.drop (k + 1) = [] :=
            List.drop_eq_nil_of_le (by omega)
          have hsub : columnAliasList.length - k = 0 := by omega
          have hsub1 : columnAliasList.length - (k + 1) = 0 := by omega
          simp only [birqColumns, TargetEntry.resjunk_mk, Bool.false_eq_true,
            if_false, List.map_cons, ih (k + 1), if_neg hlt, hdrop, hdrop1,
            hsub, hsub1, List.filter_cons, Bool.not_false, if_pos,
            List.take_nil, List.nil_append, List.drop_zero,
            TargetEntry.resname_mk]

/-- C9: the result-read query built for a subplan is a single-relation
SELECT over the read_intermediate_result table-function call taking the
result identifier and a copy-format constant; the format is binary iff
every non-junk output column's type supports the binary copy format;
output column names come positionally from the supplied alias list for
as many aliases as provided and keep the original target-list names past
that point. -/
theorem claim_C9_result_read_query (targetEntryList : List TargetEntry)
    (columnAliasList : List String) (resultId : String) :
    (∃ names tys,
       (BuildSubPlanResultQuery targetEntryList columnAliasList resultId).rtable =
         [.functionRte false false
            (.readIntermediateResult resultId
              (if CanUseBinaryCopyFormatForTargetList targetEntryList
               then CopyFormat.binary else CopyFormat.text) names tys)] ∧
       (BuildSubPlanResultQuery targetEntryList columnAliasList resultId).jointree =
         .fromExpr [.rangeTblRef 1] none ∧
       (BuildSubPlanResultQuery targetEntryList columnAliasList resultId).commandType =
         .select) ∧
    (CanUseBinaryCopyFormatForTargetList targetEntryList = true ↔
       ∀ te ∈ targetEntryList, te.resjunk = false →
         (exprType te.expr).binaryOk = true) ∧
    ((BuildSubPlanResultQuery targetEntryList columnAliasList resultId).targetList.map
        TargetEntry.resname =
      columnAliasList.take
          (((targetEntryList.filter (fun te => !te.resjunk)).map
              TargetEntry.resname).length) ++
        ((targetEntryList.filter (fun te => !te.resjunk)).map
            TargetEntry.resname).drop columnAliasList.length) := by
  refine ⟨⟨_, _, rfl, rfl, rfl⟩, ?_, ?_⟩
  · simp only [CanUseBinaryCopyFormatForTargetList, List.all_eq_true]
    constructor
    · intro h te hte hj
      have := h te hte
      rw [hj] at this
      simpa using this
    · intro h te hte
      cases hre : te.resjunk with
      | true => simp
      | false => simp [h te hte hre]
  · have h := birqColumns_resnames columnAliasList targetEntryList 0
    simpa [BuildSubPlanResultQuery, BuildReadIntermediateResultsQuery,
      Query.targetList] using h

theorem claim_C9_result_read_query_witness :
    CanUseBinaryCopyFormatForTargetList
      [TargetEntry.mk (.var 0 tyInt) "a" false] = true ∧
    (CanUseBinaryCopyFormatForTargetList
      [TargetEntry.mk (.var 0 tyMoney) "m" false] = true → False) ∧
    (BuildSubPlanResultQuery
        [TargetEntry.mk (.var 0 tyInt) "a" false,
         TargetEntry.mk (.var 0 tyInt) "b" false]
        ["alias1"] "3_1").targetList.map TargetEntry.resname =
      ["alias1", "b"] := by
  refine ⟨?_, ?_, ?_⟩
  · exact (claim_C9_result_read_query
      [TargetEntry.mk (.var 0 tyInt) "a" false] [] "x").2.1.mpr
      (by intro te hte hj; simp at hte; subst hte; rfl)
  · intro hcontra
    have h := (claim_C9_result_read_query
      [TargetEntry.mk (.var 0 tyMoney) "m" false] [] "x").2.1.mp hcontra
    have := h (TargetEntry.mk (.var 0 tyMoney) "m" false) (by simp) rfl
    simp [exprType, tyMoney] at this
  · have h := (claim_C9_result_read_query
      [TargetEntry.mk (.var 0 tyInt) "a" false,
       TargetEntry.mk (.var 0 tyInt) "b" false]
      ["alias1"] "3_1").2.2
    rw [h]
    rfl

theorem wrapRelation_no_outer (cat : RelCategory) :
    ContainsReferencesToOuterQuery (WrapRteRelationIntoSubquery (.relation cat)) = false := by
  rfl

/-- C3: in the outer-join resolver's post-order walk, an inner join is
recurring iff both sides are; a LEFT join is recurring iff its left side
is, and a recurring left with a non-recurring right forces the right side
through recursive planning; a RIGHT join is the mirror image; a FULL join
is recurring iff either side is, and the non-recurring side (if any) is
forced; a range-table-reference leaf is recurring iff it references no
distributed table.  Forcing a non-recurring relation or subquery leaf
replaces its RTE with a subquery reading a freshly created subplan. -/
theorem claim_C3_outer_join_resolver :
    (∀ (rtindex : Nat) (q : Query) (ctx : RecursivePlanningContext),
       RecursivelyPlanRecurringTupleOuterJoinWalker (.rangeTblRef rtindex) q ctx =
         (IsRTERefRecurring rtindex q, q, ctx)) ∧
    (∀ (rtindex : Nat) (q : Query),
       IsRTERefRecurring rtindex q =
         !FindNodeMatchingCheckFunctionInRangeTableList IsDistributedTableRTE
            [rt_fetch rtindex q.rtable]) ∧
    (∀ (larg rarg : JoinTreeNode) (quals : Option Expr) (q : Query)
       (ctx : RecursivePlanningContext) (bl : Bool) (q1 : Query)
       (c1 : RecursivePlanningContext) (br : Bool) (q2 : Query)
       (c2 : RecursivePlanningContext),
       RecursivelyPlanRecurringTupleOuterJoinWalker larg q ctx = (bl, q1, c1) →
       RecursivelyPlanRecurringTupleOuterJoinWalker rarg q1 c1 = (br, q2, c2) →
       (RecursivelyPlanRecurringTupleOuterJoinWalker
           (.joinExpr .inner larg rarg quals) q ctx = (bl && br, q2, c2)) ∧
       (RecursivelyPlanRecurringTupleOuterJoinWalker
           (.joinExpr .left larg rarg quals) q ctx =
         (bl, if bl && !br then RecursivelyPlanDistributedJoinNode rarg q2 c2
              else (q2, c2))) ∧
       (RecursivelyPlanRecurringTupleOuterJoinWalker
           (.joinExpr .right larg rarg quals) q ctx =
         (br, if !bl && br then RecursivelyPlanDistributedJoinNode larg q2 c2
              else (q2, c2))) ∧
       (RecursivelyPlanRecurringTupleOuterJoinWalker
           (.joinExpr .full larg rarg quals) q ctx =
         (bl || br,
          if bl && !br then RecursivelyPlanDistributedJoinNode rarg q2 c2
          else if !bl && br then RecursivelyPlanDistributedJoinNode larg q2 c2
          else (q2, c2)))) ∧
    (∀ (rtindex : Nat) (q : Query) (ctx : RecursivePlanningContext),
       IsRTERefRecurring rtindex q = true →
       RecursivelyPlanDistributedJoinNode (.rangeTblRef rtindex) q ctx = (q, ctx)) ∧
    (∀ (rtindex : Nat) (q : Query) (ctx : RecursivePlanningContext)
       (cat : RelCategory),
       rt_fetch rtindex q.rtable = .relation cat →
       IsRTERefRecurring rtindex q = false →
       RecursivelyPlanDistributedJoinNode (.rangeTblRef rtindex) q ctx =
         (q.setRtable (q.rtable.set (rtindex - 1)
            (.subqueryRte (CreateOuterSubquery
               (.subqueryRte (BuildSubPlanResultQuery
                  (WrapRteRelationIntoSubquery (.relation cat)).targetList []
                  (GenerateResultId ctx.planId (ctx.subPlanList.length + 1)))
                 false) []) false)),
          { ctx with subPlanList := ctx.subPlanList ++
              [CreateDistributedSubPlan (ctx.subPlanList.length + 1)
                 (WrapRteRelationIntoSubquery (.relation cat))] })) ∧
    (∀ (rtindex : Nat) (q : Query) (ctx : RecursivePlanningContext)
       (sub : Query) (flag : Bool),
       rt_fetch rtindex q.rtable = .subqueryRte sub flag →
       IsRTERefRecurring rtindex q = false →
       ContainsReferencesToOuterQuery sub = false →
       RecursivelyPlanDistributedJoinNode (.rangeTblRef rtindex) q ctx =
         (q.setRtable (q.rtable.set (rtindex - 1)
            (.subqueryRte (BuildSubPlanResultQuery sub.targetList []
               (GenerateResultId ctx.planId (ctx.subPlanList.length + 1))) flag)),
          { ctx with subPlanList := ctx.subPlanList ++
              [CreateDistributedSubPlan (ctx.subPlanList.length + 1) sub] })) := by
  refine ⟨?_, ?_, ?_, ?_, ?_, ?_⟩
  · intro rtindex q ctx
    rfl
  · intro rtindex q
    rfl
  · intro larg rarg quals q ctx bl q1 c1 br q2 c2 hl hr
    refine ⟨?_, ?_, ?_, ?_⟩
    · simp only [RecursivelyPlanRecurringTupleOuterJoinWalker, hl, hr]
    · simp only [RecursivelyPlanRecurringTupleOuterJoinWalker, hl, hr]
      by_cases hc : bl && !br
      · simp [hc]
      · simp [hc]
    · simp only [RecursivelyPlanRecurringTupleOuterJoinWalker, hl, hr]
      by_cases hc : !bl && br
      · simp [hc]
      · simp [hc]
    · simp only [RecursivelyPlanRecurringTupleOuterJoinWalker, hl, hr]
      by_cases hc : bl && !br
      · simp [hc]
      · by_cases hc2 : !bl && br
        · simp [hc, hc2]
        · simp [hc, hc2]
  · intro rtindex q ctx h
    simp [RecursivelyPlanDistributedJoinNode, h]
  · intro rtindex q ctx cat hfetch h
    simp only [RecursivelyPlanDistributedJoinNode, h, Bool.false_eq_true,
      if_false, hfetch, ReplaceRTERelationWithRteSubquery,
      RecursivelyPlanSubquery, wrapRelation_no_outer]
  · intro rtindex q ctx sub flag hfetch h houter
    simp only [RecursivelyPlanDistributedJoinNode, h, Bool.false_eq_true,
      if_false, hfetch, RecursivelyPlanSubquery, houter]

theorem claim_C3_outer_join_resolver_witness :
    (RecursivelyPlanRecurringTupleOuterJoinWalker
        (.joinExpr .left (.rangeTblRef 1) (.rangeTblRef 2) none)
        refLeftJoinDistQuery emptyPlanningContext).1 = true ∧
    (RecursivelyPlanRecurringTupleOuterJoinWalker
        (.joinExpr .left (.rangeTblRef 1) (.rangeTblRef 2) none)
        refLeftJoinDistQuery emptyPlanningContext).2.2.subPlanList.length = 1 ∧
    rt_fetch 1 (RecursivelyPlanRecurringTupleOuterJoinWalker
        (.joinExpr .left (.rangeTblRef 1) (.rangeTblRef 2) none)
        refLeftJoinDistQuery emptyPlanningContext).2.1.rtable =
      .relation .referenceTable ∧
    RecursivelyPlanDistributedJoinNode (.rangeTblRef 1)
        refLeftJoinDistQuery emptyPlanningContext =
      (refLeftJoinDistQuery, emptyPlanningContext) ∧
    (RecursivelyPlanDistributedJoinNode (.rangeTblRef 2)
        refLeftJoinDistQuery emptyPlanningContext).2.subPlanList.length = 1 ∧
    (RecursivelyPlanDistributedJoinNode (.rangeTblRef 1) unionQuery
        emptyPlanningContext).2.subPlanList.length = 1 := by
  have h3 := (claim_C3_outer_join_resolver).2.2.1 (.rangeTblRef 1) (.rangeTblRef 2)
      none refLeftJoinDistQuery emptyPlanningContext
      true refLeftJoinDistQuery emptyPlanningContext
      false refLeftJoinDistQuery emptyPlanningContext rfl rfl
  have h4 := (claim_C3_outer_join_resolver).2.2.2.1 1 refLeftJoinDistQuery
      emptyPlanningContext rfl
  have h5 := (claim_C3_outer_join_resolver).2.2.2.2.1 2 refLeftJoinDistQuery
      emptyPlanningContext .distributedTable rfl rfl
  have h6 := (claim_C3_outer_join_resolver).2.2.2.2.2 1 unionQuery
      emptyPlanningContext distQuery false rfl rfl rfl
  refine ⟨?_, ?_, ?_, h4, ?_, ?_⟩
  · rw [h3.2.1]
  · rw [h3.2.1]
    rfl
  · rw [h3.2.1]
    rfl
  · rw [h5]
    rfl
  · rw [h6]
    rfl

theorem fnmcfTargetList_birqColumns (check : RangeTblEntry → Bool)
    (columnAliasList : List String) :
    ∀ (targetEntryList : List TargetEntry) (k : Nat),
      fnmcfTargetList check (birqColumns columnAliasList k targetEntryList).2.2
        = false := by
  intro targetEntryList
  induction targetEntryList with
  | nil => intro k; rfl
  | cons te rest ih =>
    intro k
    cases te with
    | mk e nm junk =>
      cases junk with
      | true => simpa [birqColumns] using ih k
      | false => simp [birqColumns, fnmcfTargetList, fnmcfExpr, ih (k + 1)]

theorem findDistributed_buildSubPlanResultQuery (targetEntryList : List TargetEntry)
    (columnAliasList : List String) (resultId : String) :
    FindNodeMatchingCheckFunction IsDistributedTableRTE
      (BuildSubPlanResultQuery targetEntryList columnAliasList resultId) = false := by
  simp [BuildSubPlanResultQuery, BuildReadIntermediateResultsQuery,
    FindNodeMatchingCheckFunction, fnmcfRtes, fnmcfRte, IsDistributedTableRTE,
    fnmcfCtes, fnmcfOptExpr, fnmcfJoinTree, fnmcfJoinTreeList,
    fnmcfTargetList_birqColumns, fnmcfTargetList]

theorem readsIntermediateResult_build (targetEntryList : List TargetEntry)
    (columnAliasList : List String) (resultId : String) :
    readsIntermediateResult resultId
      (BuildSubPlanResultQuery targetEntryList columnAliasList resultId) = true := by
  simp [BuildSubPlanResultQuery, BuildReadIntermediateResultsQuery,
    readsIntermediateResult, Query.rtable]

theorem rt_fetch_of_getElem (rtable : List RangeTblEntry) (idx : Nat)
    (e : RangeTblEntry) (h : rtable[idx - 1]? = some e) :
    rt_fetch idx rtable = e := by
  simp [rt_fetch, List.getD, h]

theorem setOperations_stable (node : SetOpNode) :
    ∀ (q : Query) (ctx : RecursivePlanningContext) (j : Nat) (rq : Query)
      (fl : Bool),
      q.rtable[j]? = some (.subqueryRte rq fl) →
      FindNodeMatchingCheckFunction IsDistributedTableRTE rq = false →
      (RecursivelyPlanSetOperations q node ctx).1.rtable[j]? =
        some (.subqueryRte rq fl) := by
  induction node with
  | setOpStmt op l r ihl ihr =>
    intro q ctx j rq fl h hf
    simp only [RecursivelyPlanSetOperations]
    exact ihr _ _ j rq fl (ihl q ctx j rq fl h hf) hf
  | rtRef idx =>
    intro q ctx j rq fl h hf
    by_cases hij : idx - 1 = j
    · subst hij
      have hfetch : rt_fetch idx q.rtable = .subqueryRte rq fl :=
        rt_fetch_of_getElem _ _ _ h
      simp only [RecursivelyPlanSetOperations, hfetch, hf, Bool.false_eq_true,
        if_false]
      exact h
    · cases hfetch : rt_fetch idx q.rtable with
      | subqueryRte sub viaCopy =>
        simp only [RecursivelyPlanSetOperations, hfetch]
        by_cases hdist : FindNodeMatchingCheckFunction IsDistributedTableRTE sub = true
        · simp only [hdist, if_true, rtable_setRtable]
          rw [List.getElem?_set_ne hij]
          exact h
        · simp only [hdist, if_false]
          exact h
      | relation c => simpa only [RecursivelyPlanSetOperations, hfetch] using h
      | cteRte n l => simpa only [RecursivelyPlanSetOperations, hfetch] using h
      | functionRte a b c => simpa only [RecursivelyPlanSetOperations, hfetch] using h
      | valuesRte => simpa only [RecursivelyPlanSetOperations, hfetch] using h
      | joinRte => simpa only [RecursivelyPlanSetOperations, hfetch] using h

theorem setOperations_frame (node : SetOpNode) :
    ∀ (q : Query) (ctx : RecursivePlanningContext) (j : Nat),
      (∀ i ∈ setOpLeafIndexes node, 1 ≤ i) →
      (j + 1) ∉ setOpLeafIndexes node →
      (RecursivelyPlanSetOperations q node ctx).1.rtable[j]? = q.rtable[j]? := by
  induction node with
  | setOpStmt op l r ihl ihr =>
    intro q ctx j hwf hj
    simp only [setOpLeafIndexes, List.mem_append] at hj hwf
    push_neg at hj
    simp only [RecursivelyPlanSetOperations]
    rw [ihr _ _ j (fun i hi => hwf i (Or.inr hi)) hj.2,
        ihl q ctx j (fun i hi => hwf i (Or.inl hi)) hj.1]
  | rtRef idx =>
    intro q ctx j hwf hj
    simp only [setOpLeafIndexes, List.mem_singleton] at hj hwf
    have hidx : 1 ≤ idx := hwf idx rfl
    have hne : idx - 1 ≠ j := by omega
    cases hfetch : rt_fetch idx q.rtable with
    | subqueryRte sub viaCopy =>
      simp only [RecursivelyPlanSetOperations, hfetch]
      by_cases hdist : FindNodeMatchingCheckFunction IsDistributedTableRTE sub = true
      · simp only [hdist, if_true, rtable_setRtable]
        exact List.getElem?_set_ne hne
      · simp [hdist]
    | relation c => simp only [RecursivelyPlanSetOperations, hfetch]
    | cteRte n l => simp only [RecursivelyPlanSetOperations, hfetch]
    | functionRte a b c => simp only [RecursivelyPlanSetOperations, hfetch]
    | valuesRte => simp only [RecursivelyPlanSetOperations, hfetch]
    | joinRte => simp only [RecursivelyPlanSetOperations, hfetch]

theorem setOperations_leaf_planned (node : SetOpNode) :
    ∀ (q : Query) (ctx : RecursivePlanningContext) (idx : Nat) (sub : Query)
      (flag : Bool),
      (∀ i ∈ setOpLeafIndexes node, 1 ≤ i) →
      idx ∈ setOpLeafIndexes node →
      q.rtable[idx - 1]? = some (.subqueryRte sub flag) →
      ((FindNodeMatchingCheckFunction IsDistributedTableRTE sub = true ∧
        ContainsReferencesToOuterQuery sub = false) ∨
       (FindNodeMatchingCheckFunction IsDistributedTableRTE sub = false ∧
        ∃ rid, readsIntermediateResult rid sub = true)) →
      ∃ rq rid,
        (RecursivelyPlanSetOperations q node ctx).1.rtable[idx - 1]? =
          some (.subqueryRte rq flag) ∧
        readsIntermediateResult rid rq = true ∧
        FindNodeMatchingCheckFunction IsDistributedTableRTE rq = false := by
  induction node with
  | rtRef idx' =>
    intro q ctx idx sub flag hwf hmem h hp
    simp only [setOpLeafIndexes, List.mem_singleton] at hmem
    subst hmem
    have hfetch : rt_fetch idx q.rtable = .subqueryRte sub flag :=
      rt_fetch_of_getElem _ _ _ h
    have hlen : idx - 1 < q.rtable.length := by
      rcases List.getElem?_eq_some.mp h with ⟨hl, _⟩
      exact hl
    rcases hp with ⟨hdist, houter⟩ | ⟨hnd, rid, hread⟩
    · simp only [RecursivelyPlanSetOperations, hfetch, hdist, if_true,
        RecursivelyPlanSubquery, houter, Bool.false_eq_true, if_false,
        rtable_setRtable]
      refine ⟨BuildSubPlanResultQuery sub.targetList []
          (GenerateResultId ctx.planId (ctx.subPlanList.length + 1)),
        GenerateResultId ctx.planId (ctx.subPlanList.length + 1),
        ?_, ?_, ?_⟩
      · rw [List.getElem?_set_self', List.getElem?_eq_getElem hlen]
        rfl
      · exact readsIntermediateResult_build _ _ _
      · exact findDistributed_buildSubPlanResultQuery _ _ _
    · simp only [RecursivelyPlanSetOperations, hfetch, hnd, Bool.false_eq_true,
        if_false]
      exact ⟨sub, rid, h, hread, hnd⟩
  | setOpStmt op l r ihl ihr =>
    intro q ctx idx sub flag hwf hmem h hp
    simp only [setOpLeafIndexes, List.mem_append] at hmem hwf
    have hwfl : ∀ i ∈ setOpLeafIndexes l, 1 ≤ i := fun i hi => hwf i (Or.inl hi)
    have hwfr : ∀ i ∈ setOpLeafIndexes r, 1 ≤ i := fun i hi => hwf i (Or.inr hi)
    by_cases hl : idx ∈ setOpLeafIndexes l
    · rcases ihl q ctx idx sub flag hwfl hl h hp with ⟨rq, rid, hmid, hread, hnd⟩
      refine ⟨rq, rid, ?_, hread, hnd⟩
      simp only [RecursivelyPlanSetOperations]
      exact setOperations_stable r _ _ _ rq flag hmid hnd
    · have hr : idx ∈ setOpLeafIndexes r := by
        rcases hmem with hml | hmr
        · exact absurd hml hl
        · exact hmr
      have hidx1 : 1 ≤ idx := hwf idx (Or.inr hr)
      have hframe :
          (RecursivelyPlanSetOperations q l ctx).1.rtable[idx - 1]? =
            q.rtable[idx - 1]? := by
        apply setOperations_frame l q ctx (idx - 1) hwfl
        have : idx - 1 + 1 = idx := by omega
        rw [this]
        exact hl
      simp only [RecursivelyPlanSetOperations]
      exact ihr _ _ idx sub flag hwfr hr (hframe.trans h) hp

/-- C4: a query at nesting level 0 with a set-operation tree always has
ShouldRecursivelyPlanSetOperation return true, whatever the union-safety
oracles say; and RecursivelyPlanSetOperations replaces every leaf
subquery that contains a distributed table (and does not reference the
enclosing query) by a result-read fragment. -/
theorem claim_C4_top_level_set_operations :
    (∀ (query : Query) (context : RecursivePlanningContext)
       (oracles : PlannerOracles) (node : SetOpNode),
       query.setOperations = some node →
       context.level = 0 →
       ShouldRecursivelyPlanSetOperation query context oracles = true) ∧
    (∀ (node : SetOpNode) (query : Query) (context : RecursivePlanningContext)
       (idx : Nat) (sub : Query) (flag : Bool),
       (∀ i ∈ setOpLeafIndexes node, 1 ≤ i) →
       idx ∈ setOpLeafIndexes node →
       query.rtable[idx - 1]? = some (.subqueryRte sub flag) →
       FindNodeMatchingCheckFunction IsDistributedTableRTE sub = true →
       ContainsReferencesToOuterQuery sub = false →
       ∃ rq rid,
         (RecursivelyPlanSetOperations query node context).1.rtable[idx - 1]? =
           some (.subqueryRte rq flag) ∧
         readsIntermediateResult rid rq = true ∧
         FindNodeMatchingCheckFunction IsDistributedTableRTE rq = false) := by
  constructor
  · intro query context oracles node hset hlevel
    simp [ShouldRecursivelyPlanSetOperation, hset, hlevel]
  · intro node query context idx sub flag hwf hmem h hdist houter
    exact setOperations_leaf_planned node query context idx sub flag hwf hmem h
      (Or.inl ⟨hdist, houter⟩)

theorem claim_C4_top_level_set_operations_witness :
    ShouldRecursivelyPlanSetOperation unionQuery emptyPlanningContext
      ⟨fun _ => false, fun _ => true⟩ = true ∧
    (∃ rq rid,
       (RecursivelyPlanSetOperations unionQuery
           (.setOpStmt .union (.rtRef 1) (.rtRef 2))
           emptyPlanningContext).1.rtable[0]? =
         some (.subqueryRte rq false) ∧
       readsIntermediateResult rid rq = true ∧
       FindNodeMatchingCheckFunction IsDistributedTableRTE rq = false) ∧
    (RecursivelyPlanSetOperations unionQuery
        (.setOpStmt .union (.rtRef 1) (.rtRef 2))
        emptyPlanningContext).2.subPlanList.length = 2 := by
  refine ⟨?_, ?_, ?_⟩
  · exact (claim_C4_top_level_set_operations).1 unionQuery emptyPlanningContext
      ⟨fun _ => false, fun _ => true⟩ (.setOpStmt .union (.rtRef 1) (.rtRef 2))
      rfl rfl
  · exact (claim_C4_top_level_set_operations).2
      (.setOpStmt .union (.rtRef 1) (.rtRef 2)) unionQuery emptyPlanningContext
      1 distQuery false (by decide) (by decide) rfl rfl rfl
  · rfl

/-- C6 counterexample: a HAVING clause whose sublink subquery references
no Citus table passes the outer-reference check, yet
RecursivelyPlanAllSubqueries leaves it in place and creates no subplan —
contradicting "otherwise every subquery inside the HAVING clause is
unconditionally recursively planned into a subplan". -/
theorem claim_C6_having_counterexample :
    planHavingClauseStage havingLocalSublinkQuery emptyPlanningContext =
      .ok (havingLocalSublinkQuery, emptyPlanningContext) ∧
    havingLocalSublinkQuery.havingQual = some (.sublink localOnlyQuery tyInt) ∧
    NodeContainsSubqueryReferencingOuterQuery
      (.sublink localOnlyQuery tyInt) = false ∧
    emptyPlanningContext.subPlanList = [] := by
  exact ⟨rfl, rfl, rfl, rfl⟩

/-- C6 (amended): a HAVING clause containing a sublink whose subquery
references the enclosing query makes planning fail with the deferred
feature-not-supported error "Subqueries in HAVING cannot refer to outer
query" before any HAVING subquery is planned; otherwise every subquery
inside the HAVING clause that contains at least one Citus table is
recursively planned into a subplan, and a HAVING subquery with no Citus
table is left in place. -/
theorem claim_C6_having_amended :
    (∀ (query : Query) (ctx : RecursivePlanningContext) (hq : Expr),
       query.havingQual = some hq →
       NodeContainsSubqueryReferencingOuterQuery hq = true →
       planHavingClauseStage query ctx =
         .error ⟨.featureNotSupported,
                 "Subqueries in HAVING cannot refer to outer query"⟩) ∧
    (∀ (query : Query) (ctx : RecursivePlanningContext) (hq : Expr),
       query.havingQual = some hq →
       NodeContainsSubqueryReferencingOuterQuery hq = false →
       planHavingClauseStage query ctx =
         .ok (query.setHavingQual (some (RecursivelyPlanAllSubqueries hq ctx).1),
              (RecursivelyPlanAllSubqueries hq ctx).2)) ∧
    (∀ (subselect : Query) (ty : Ty) (ctx : RecursivePlanningContext),
       FindNodeMatchingCheckFunctionInRangeTableList IsCitusTableRTE
           subselect.rtable = true →
       ContainsReferencesToOuterQuery subselect = false →
       RecursivelyPlanAllSubqueries (.sublink subselect ty) ctx =
         (.sublink (BuildSubPlanResultQuery subselect.targetList []
             (GenerateResultId ctx.planId (ctx.subPlanList.length + 1))) ty,
          { ctx with subPlanList := ctx.subPlanList ++
              [CreateDistributedSubPlan (ctx.subPlanList.length + 1) subselect] })) ∧
    (∀ (subselect : Query) (ty : Ty) (ctx : RecursivePlanningContext),
       FindNodeMatchingCheckFunctionInRangeTableList IsCitusTableRTE
           subselect.rtable = false →
       RecursivelyPlanAllSubqueries (.sublink subselect ty) ctx =
         (.sublink subselect ty, ctx)) := by
  refine ⟨?_, ?_, ?_, ?_⟩
  · intro query ctx hq hhq houter
    simp only [planHavingClauseStage, hhq, houter, if_true]
  · intro query ctx hq hhq houter
    simp only [planHavingClauseStage, hhq, houter, Bool.false_eq_true, if_false]
  · intro subselect ty ctx hcitus houter
    simp only [RecursivelyPlanAllSubqueries, hcitus, if_true,
      RecursivelyPlanSubquery, houter, Bool.false_eq_true, if_false]
  · intro subselect ty ctx hcitus
    simp only [RecursivelyPlanAllSubqueries, hcitus, Bool.false_eq_true, if_false]

theorem claim_C6_having_amended_witness :
    planHavingClauseStage havingCorrelatedSublinkQuery emptyPlanningContext =
      .error ⟨.featureNotSupported,
              "Subqueries in HAVING cannot refer to outer query"⟩ ∧
    planHavingClauseStage havingDistSublinkQuery emptyPlanningContext =
      .ok (havingDistSublinkQuery.setHavingQual
             (some (RecursivelyPlanAllSubqueries
                (.sublink distQuery tyInt) emptyPlanningContext).1),
           (RecursivelyPlanAllSubqueries
              (.sublink distQuery tyInt) emptyPlanningContext).2) ∧
    RecursivelyPlanAllSubqueries (.sublink distQuery tyInt)
        emptyPlanningContext =
      (.sublink (BuildSubPlanResultQuery distQuery.targetList []
          (GenerateResultId 3 1)) tyInt,
       { emptyPlanningContext with
           subPlanList := [CreateDistributedSubPlan 1 distQuery] }) ∧
    RecursivelyPlanAllSubqueries (.sublink localOnlyQuery tyInt)
        emptyPlanningContext =
      (.sublink localOnlyQuery tyInt, emptyPlanningContext) := by
  refine ⟨?_, ?_, ?_, ?_⟩
  · exact (claim_C6_having_amended).1 havingCorrelatedSublinkQuery
      emptyPlanningContext (.sublink correlatedQuery tyInt) rfl rfl
  · exact (claim_C6_having_amended).2.1 havingDistSublinkQuery
      emptyPlanningContext (.sublink distQuery tyInt) rfl rfl
  · exact (claim_C6_having_amended).2.2.1 distQuery tyInt
      emptyPlanningContext rfl rfl
  · exact (claim_C6_having_amended).2.2.2 localOnlyQuery tyInt
      emptyPlanningContext rfl

theorem cteIsSkipped_iff (cte : CommonTableExpr) :
    cteIsSkipped cte = true ↔
      (cte.cterefcount = 0 ∧ cte.ctequery.commandType = .select) := by
  cases hc : cte.ctequery.commandType <;>
    simp [cteIsSkipped, hc]

theorem recursivelyPlanCTEsLoop_length (planId : Nat) :
    ∀ (ctes : List CommonTableExpr) (refs : List RangeTblEntry)
      (subs : List DistributedSubPlan) (refs' : List RangeTblEntry)
      (subs' : List DistributedSubPlan),
      RecursivelyPlanCTEsLoop planId ctes refs subs = .ok (refs', subs') →
      subs'.length = subs.length + countMaterializedCtes ctes := by
  intro ctes
  induction ctes with
  | nil =>
    intro refs subs refs' subs' hrun
    simp only [RecursivelyPlanCTEsLoop] at hrun
    cases hrun
    simp [countMaterializedCtes]
  | cons cte rest ih =>
    intro refs subs refs' subs' hrun
    simp only [RecursivelyPlanCTEsLoop] at hrun
    by_cases houter : ContainsReferencesToOuterQuery cte.ctequery
    · simp [houter] at hrun
    · by_cases hskip : cte.cterefcount = 0 ∧ cte.ctequery.commandType = .select
      · rw [if_neg (by simp [houter]), if_pos hskip] at hrun
        have hsk : cteIsSkipped cte = true := (cteIsSkipped_iff cte).mpr hskip
        have hlen := ih refs subs refs' subs' hrun
        simp only [countMaterializedCtes, List.filter_cons, hsk, Bool.not_true,
          Bool.false_eq_true, if_false] at hlen ⊢
        exact hlen
      · rw [if_neg (by simp [houter]), if_neg hskip] at hrun
        have hsk : cteIsSkipped cte = false := by
          rw [Bool.eq_false_iff]
          intro hc
          exact hskip ((cteIsSkipped_iff cte).mp hc)
        have hlen := ih _ _ refs' subs' hrun
        simp only [countMaterializedCtes, List.filter_cons, hsk, Bool.not_false,
          if_true, List.length_cons] at hlen ⊢
        simp only [List.length_append, List.length_singleton] at hlen
        omega

theorem countCteRtesNamed_cons (name : String) (rte : RangeTblEntry)
    (rest : List RangeTblEntry) :
    countCteRtesNamed name (rte :: rest) =
      (match rte with
       | .cteRte nm _ => if nm = name then 1 else 0
       | _ => 0) + countCteRtesNamed name rest := by
  cases rte with
  | cteRte nm lvl =>
    by_cases hm : nm = name <;>
      simp [countCteRtesNamed, List.filter_cons, hm, Nat.add_comm]
  | relation c => simp [countCteRtesNamed, List.filter_cons]
  | subqueryRte s f => simp [countCteRtesNamed, List.filter_cons]
  | functionRte a b c => simp [countCteRtesNamed, List.filter_cons]
  | valuesRte => simp [countCteRtesNamed, List.filter_cons]
  | joinRte => simp [countCteRtesNamed, List.filter_cons]

theorem countCteRtesNamed_replace_ne (name otherName : String)
    (rq : Query) (hne : otherName ≠ name) :
    ∀ (refs : List RangeTblEntry) (n : Nat),
      countCteRtesNamed name (replaceCteReferences otherName rq n refs) =
        countCteRtesNamed name refs := by
  intro refs
  induction refs with
  | nil => intro n; rfl
  | cons rte rest ih =>
    intro n
    cases rte with
    | cteRte nm lvl =>
      by_cases hm : nm = otherName
      · have hnm : ¬ nm = name := fun h => hne (hm ▸ h)
        simp only [replaceCteReferences, if_pos hm]
        by_cases hz : n = 0 <;>
          simp [hz, countCteRtesNamed_cons, hnm, ih]
      · simp only [replaceCteReferences, if_neg hm]
        simp [countCteRtesNamed_cons, ih n]
    | relation c =>
      simp only [replaceCteReferences]
      simp [countCteRtesNamed_cons, ih n]
    | subqueryRte s f =>
      simp only [replaceCteReferences]
      simp [countCteRtesNamed_cons, ih n]
    | functionRte a b c =>
      simp only [replaceCteReferences]
      simp [countCteRtesNamed_cons, ih n]
    | valuesRte =>
      simp only [replaceCteReferences]
      simp [countCteRtesNamed_cons, ih n]
    | joinRte =>
      simp only [replaceCteReferences]
      simp [countCteRtesNamed_cons, ih n]

theorem countCteRtesNamed_replace_self (name : String) (rq : Query) :
    ∀ (refs : List RangeTblEntry) (n : Nat),
      countCteRtesNamed name (replaceCteReferences name rq n refs) = 0 := by
  intro refs
  induction refs with
  | nil => intro n; rfl
  | cons rte rest ih =>
    intro n
    cases rte with
    | cteRte nm lvl =>
      by_cases hm : nm = name
      · simp only [replaceCteReferences, if_pos hm]
        by_cases hz : n = 0 <;>
          simp [hz, countCteRtesNamed_cons, ih]
      · simp only [replaceCteReferences, if_neg hm]
        simp [countCteRtesNamed_cons, hm, ih n]
    | relation c =>
      simp only [replaceCteReferences]
      simp [countCteRtesNamed_cons, ih n]
    | subqueryRte s f =>
      simp only [replaceCteReferences]
      simp [countCteRtesNamed_cons, ih n]
    | functionRte a b c =>
      simp only [replaceCteReferences]
      simp [countCteRtesNamed_cons, ih n]
    | valuesRte =>
      simp only [replaceCteReferences]
      simp [countCteRtesNamed_cons, ih n]
    | joinRte =>
      simp only [replaceCteReferences]
      simp [countCteRtesNamed_cons, ih n]

theorem resultReadEntries_cons (rid : String) (rte : RangeTblEntry)
    (rest : List RangeTblEntry) :
    resultReadEntries rid (rte :: rest) =
      (match rte with
       | .subqueryRte sub viaCopy =>
           if readsIntermediateResult rid sub then [(sub, viaCopy)] else []
       | _ => []) ++ resultReadEntries rid rest := by
  cases rte with
  | subqueryRte s f =>
    by_cases hr : readsIntermediateResult rid s <;>
      simp [resultReadEntries, List.filterMap_cons, hr]
  | relation c => simp [resultReadEntries, List.filterMap_cons]
  | cteRte nm lvl => simp [resultReadEntries, List.filterMap_cons]
  | functionRte a b c => simp [resultReadEntries, List.filterMap_cons]
  | valuesRte => simp [resultReadEntries, List.filterMap_cons]
  | joinRte => simp [resultReadEntries, List.filterMap_cons]

theorem readsIntermediateResult_build_eq (rid resultId : String)
    (targetEntryList : List TargetEntry) (columnAliasList : List String) :
    readsIntermediateResult rid
      (BuildSubPlanResultQuery targetEntryList columnAliasList resultId) =
      decide (resultId = rid) := by
  simp [BuildSubPlanResultQuery, BuildReadIntermediateResultsQuery,
    readsIntermediateResult, Query.rtable]

theorem resultReadEntries_replace_preserve (rid name : String) (rq : Query)
    (hniq : readsIntermediateResult rid rq = false) :
    ∀ (refs : List RangeTblEntry) (n : Nat),
      resultReadEntries rid (replaceCteReferences name rq n refs) =
        resultReadEntries rid refs := by
  intro refs
  induction refs with
  | nil => intro n; rfl
  | cons rte rest ih =>
    intro n
    cases rte with
    | cteRte nm lvl =>
      by_cases hm : nm = name
      · simp only [replaceCteReferences, if_pos hm]
        by_cases hz : n = 0 <;>
          simp [hz, resultReadEntries_cons, copyObject, hniq, ih]
      · simp only [replaceCteReferences, if_neg hm]
        simp [resultReadEntries_cons, ih n]
    | relation c =>
      simp only [replaceCteReferences]
      simp [resultReadEntries_cons, ih n]
    | subqueryRte s f =>
      simp only [replaceCteReferences]
      by_cases hr : readsIntermediateResult rid s <;>
        simp [resultReadEntries_cons, hr, ih n]
    | functionRte a b c =>
      simp only [replaceCteReferences]
      simp [resultReadEntries_cons, ih n]
    | valuesRte =>
      simp only [replaceCteReferences]
      simp [resultReadEntries_cons, ih n]
    | joinRte =>
      simp only [replaceCteReferences]
      simp [resultReadEntries_cons, ih n]

theorem resultReadEntries_replace_pattern (rid name : String) (rq : Query)
    (hread : readsIntermediateResult rid rq = true) :
    ∀ (refs : List RangeTblEntry) (n : Nat),
      resultReadEntries rid refs = [] →
      resultReadEntries rid (replaceCteReferences name rq n refs) =
        (if countCteRtesNamed name refs = 0 then []
         else if n = 0 then
           (rq, false) ::
             List.replicate (countCteRtesNamed name refs - 1) (rq, true)
         else List.replicate (countCteRtesNamed name refs) (rq, true)) := by
  intro refs
  induction refs with
  | nil =>
    intro n hempty
    simpa [replaceCteReferences, countCteRtesNamed] using hempty
  | cons rte rest ih =>
    intro n hempty
    rw [resultReadEntries_cons] at hempty
    cases rte with
    | cteRte nm lvl =>
      simp only [List.nil_append] at hempty
      by_cases hm : nm = name
      · simp only [replaceCteReferences, if_pos hm]
        have hcount : countCteRtesNamed name (RangeTblEntry.cteRte nm lvl :: rest) =
            countCteRtesNamed name rest + 1 := by
          simp [countCteRtesNamed_cons, hm, Nat.add_comm]
        by_cases hz : n = 0
        · subst hz
          rw [if_pos rfl, resultReadEntries_cons]
          simp only [hread, if_true, List.singleton_append, Nat.zero_add]
          rw [hcount, if_neg (by omega), Nat.add_sub_cancel]
          have hrec : resultReadEntries rid (replaceCteReferences name rq 1 rest) =
              List.replicate (countCteRtesNamed name rest) (rq, true) := by
            rw [ih 1 hempty]
            by_cases hc0 : countCteRtesNamed name rest = 0
            · simp [hc0]
            · rw [if_neg hc0, if_neg (by omega)]
          rw [hrec]
        · rw [if_neg hz, resultReadEntries_cons]
          simp only [copyObject, hread, if_true, List.singleton_append]
          rw [hcount, if_neg (by omega), if_neg hz]
          have hrec : resultReadEntries rid
              (replaceCteReferences name rq (n + 1) rest) =
              List.replicate (countCteRtesNamed name rest) (rq, true) := by
            rw [ih (n + 1) hempty]
            by_cases hc0 : countCteRtesNamed name rest = 0
            · simp [hc0]
            · rw [if_neg hc0, if_neg (by omega)]
          rw [hrec, List.replicate_succ]
      · simp only [replaceCteReferences, if_neg hm]
        have hcount : countCteRtesNamed name (RangeTblEntry.cteRte nm lvl :: rest) =
            countCteRtesNamed name rest := by
          simp [countCteRtesNamed_cons, hm]
        rw [resultReadEntries_cons]
        simp only [List.nil_append, hcount]
        exact ih n hempty
    | relation c =>
      simp only [List.nil_append] at hempty
      simp only [replaceCteReferences]
      rw [resultReadEntries_cons]
      simp only [List.nil_append, countCteRtesNamed_cons]
      simpa using ih n hempty
    | subqueryRte s f =>
      by_cases hr : readsIntermediateResult rid s
      · simp [hr] at hempty
      · simp only [hr, Bool.false_eq_true, if_false, List.nil_append] at hempty
        simp only [replaceCteReferences]
        rw [resultReadEntries_cons]
        simp only [hr, Bool.false_eq_true, if_false, List.nil_append,
          countCteRtesNamed_cons]
        simpa using ih n hempty
    | functionRte a b c =>
      simp only [List.nil_append] at hempty
      simp only [replaceCteReferences]
      rw [resultReadEntries_cons]
      simp only [List.nil_append, countCteRtesNamed_cons]
      simpa using ih n hempty
    | valuesRte =>
      simp only [List.nil_append] at hempty
      simp only [replaceCteReferences]
      rw [resultReadEntries_cons]
      simp only [List.nil_append, countCteRtesNamed_cons]
      simpa using ih n hempty
    | joinRte =>
      simp only [List.nil_append] at hempty
      simp only [replaceCteReferences]
      rw [resultReadEntries_cons]
      simp only [List.nil_append, countCteRtesNamed_cons]
      simpa using ih n hempty

theorem recursivelyPlanCTEsLoop_count_preserve (planId : Nat) (name : String) :
    ∀ (ctes : List CommonTableExpr) (refs : List RangeTblEntry)
      (subs : List DistributedSubPlan) (refs' : List RangeTblEntry)
      (subs' : List DistributedSubPlan),
      RecursivelyPlanCTEsLoop planId ctes refs subs = .ok (refs', subs') →
      name ∉ ctes.map CommonTableExpr.ctename →
      countCteRtesNamed name refs' = countCteRtesNamed name refs := by
  intro ctes
  induction ctes with
  | nil =>
    intro refs subs refs' subs' hrun hni
    simp only [RecursivelyPlanCTEsLoop] at hrun
    cases hrun
    rfl
  | cons cte rest ih =>
    intro refs subs refs' subs' hrun hni
    simp only [List.map_cons, List.mem_cons, not_or] at hni
    simp only [RecursivelyPlanCTEsLoop] at hrun
    by_cases houter : ContainsReferencesToOuterQuery cte.ctequery
    · simp [houter] at hrun
    · by_cases hskip : cte.cterefcount = 0 ∧ cte.ctequery.commandType = .select
      · rw [if_neg (by simp [houter]), if_pos hskip] at hrun
        exact ih refs subs refs' subs' hrun hni.2
      · rw [if_neg (by simp [houter]), if_neg hskip] at hrun
        rw [ih _ _ refs' subs' hrun hni.2]
        exact countCteRtesNamed_replace_ne name cte.ctename _
          (fun h => hni.1 h.symm) refs 0

theorem recursivelyPlanCTEsLoop_skipped_count (planId : Nat) (name : String) :
    ∀ (ctes : List CommonTableExpr) (refs : List RangeTblEntry)
      (subs : List DistributedSubPlan) (refs' : List RangeTblEntry)
      (subs' : List DistributedSubPlan),
      RecursivelyPlanCTEsLoop planId ctes refs subs = .ok (refs', subs') →
      (∀ c ∈ ctes, c.ctename = name → cteIsSkipped c = true) →
      countCteRtesNamed name refs' = countCteRtesNamed name refs := by
  intro ctes
  induction ctes with
  | nil =>
    intro refs subs refs' subs' hrun _
    simp only [RecursivelyPlanCTEsLoop] at hrun
    cases hrun
    rfl
  | cons cte rest ih =>
    intro refs subs refs' subs' hrun hall
    simp only [RecursivelyPlanCTEsLoop] at hrun
    by_cases houter : ContainsReferencesToOuterQuery cte.ctequery
    · simp [houter] at hrun
    · by_cases hskip : cte.cterefcount = 0 ∧ cte.ctequery.commandType = .select
      · rw [if_neg (by simp [houter]), if_pos hskip] at hrun
        exact ih refs subs refs' subs' hrun
          (fun c hc hn => hall c (List.mem_cons_of_mem cte hc) hn)
      · rw [if_neg (by simp [houter]), if_neg hskip] at hrun
        have hne : cte.ctename ≠ name := by
          intro h
          have := hall cte (List.mem_cons_self cte rest) h
          rw [cteIsSkipped_iff] at this
          exact hskip this
        rw [ih _ _ refs' subs' hrun
          (fun c hc hn => hall c (List.mem_cons_of_mem cte hc) hn)]
        exact countCteRtesNamed_replace_ne name cte.ctename _ hne refs 0

theorem recursivelyPlanCTEsLoop_rre_preserve (planId : Nat) (sid : Nat) :
    ∀ (ctes : List CommonTableExpr) (refs : List RangeTblEntry)
      (subs : List DistributedSubPlan) (refs' : List RangeTblEntry)
      (subs' : List DistributedSubPlan),
      RecursivelyPlanCTEsLoop planId ctes refs subs = .ok (refs', subs') →
      sid ≤ subs.length →
      resultReadEntries (GenerateResultId planId sid) refs' =
        resultReadEntries (GenerateResultId planId sid) refs := by
  intro ctes
  induction ctes with
  | nil =>
    intro refs subs refs' subs' hrun _
    simp only [RecursivelyPlanCTEsLoop] at hrun
    cases hrun
    rfl
  | cons cte rest ih =>
    intro refs subs refs' subs' hrun hsid
    simp only [RecursivelyPlanCTEsLoop] at hrun
    by_cases houter : ContainsReferencesToOuterQuery cte.ctequery
    · simp [houter] at hrun
    · by_cases hskip : cte.cterefcount = 0 ∧ cte.ctequery.commandType = .select
      · rw [if_neg (by simp [houter]), if_pos hskip] at hrun
        exact ih refs subs refs' subs' hrun hsid
      · rw [if_neg (by simp [houter]), if_neg hskip] at hrun
        have hniq : readsIntermediateResult (GenerateResultId planId sid)
            (BuildSubPlanResultQuery
              (if cte.ctequery.returningList.isEmpty then cte.ctequery.targetList
               else cte.ctequery.returningList)
              cte.aliascolnames (GenerateResultId planId (subs.length + 1))) =
            false := by
          rw [readsIntermediateResult_build_eq]
          simp only [decide_eq_false_iff_not]
          intro heq
          have := GenerateResultId_injective_right planId heq
          omega
        rw [ih _ _ refs' subs' hrun (by simpa using Nat.le_succ_of_le hsid)]
        exact resultReadEntries_replace_preserve _ _ _ hniq refs 0

theorem recursivelyPlanCTEsLoop_subs_mono (planId : Nat) :
    ∀ (ctes : List CommonTableExpr) (refs : List RangeTblEntry)
      (subs : List DistributedSubPlan) (refs' : List RangeTblEntry)
      (subs' : List DistributedSubPlan),
      RecursivelyPlanCTEsLoop planId ctes refs subs = .ok (refs', subs') →
      ∀ sp ∈ subs, sp ∈ subs' := by
  intro ctes
  induction ctes with
  | nil =>
    intro refs subs refs' subs' hrun sp hsp
    simp only [RecursivelyPlanCTEsLoop] at hrun
    cases hrun
    exact hsp
  | cons cte rest ih =>
    intro refs subs refs' subs' hrun sp hsp
    simp only [RecursivelyPlanCTEsLoop] at hrun
    by_cases houter : ContainsReferencesToOuterQuery cte.ctequery
    · simp [houter] at hrun
    · by_cases hskip : cte.cterefcount = 0 ∧ cte.ctequery.commandType = .select
      · rw [if_neg (by simp [houter]), if_pos hskip] at hrun
        exact ih refs subs refs' subs' hrun sp hsp
      · rw [if_neg (by simp [houter]), if_neg hskip] at hrun
        exact ih _ _ refs' subs' hrun sp (List.mem_append_left _ hsp)

theorem recursivelyPlanCTEsLoop_materialized (planId : Nat) :
    ∀ (ctes : List CommonTableExpr) (refs : List RangeTblEntry)
      (subs : List DistributedSubPlan) (refs' : List RangeTblEntry)
      (subs' : List DistributedSubPlan) (cte : CommonTableExpr),
      RecursivelyPlanCTEsLoop planId ctes refs subs = .ok (refs', subs') →
      cte ∈ ctes →
      (ctes.map CommonTableExpr.ctename).Nodup →
      (∀ sid, subs.length + 1 ≤ sid →
        resultReadEntries (GenerateResultId planId sid) refs = []) →
      ¬ cteIsSkipped cte = true →
      ∃ sid,
        (∃ sp ∈ subs', sp.subPlanId = sid ∧ sp.subPlanQuery = cte.ctequery) ∧
        resultReadEntries (GenerateResultId planId sid) refs' =
          (if countCteRtesNamed cte.ctename refs = 0 then []
           else
             (BuildSubPlanResultQuery
                (if cte.ctequery.returningList.isEmpty then cte.ctequery.targetList
                 else cte.ctequery.returningList)
                cte.aliascolnames (GenerateResultId planId sid), false) ::
               List.replicate (countCteRtesNamed cte.ctename refs - 1)
                 (BuildSubPlanResultQuery
                    (if cte.ctequery.returningList.isEmpty then cte.ctequery.targetList
                     else cte.ctequery.returningList)
                    cte.aliascolnames (GenerateResultId planId sid), true)) ∧
        countCteRtesNamed cte.ctename refs' = 0 := by
  intro ctes
  induction ctes with
  | nil =>
    intro refs subs refs' subs' cte hrun hmem
    exact absurd hmem (List.not_mem_nil cte)
  | cons chead rest ih =>
    intro refs subs refs' subs' cte hrun hmem hnodup hfresh hmat
    simp only [RecursivelyPlanCTEsLoop] at hrun
    by_cases houter : ContainsReferencesToOuterQuery chead.ctequery
    · simp [houter] at hrun
    · simp only [List.map_cons, List.nodup_cons] at hnodup
      rcases List.mem_cons.mp hmem with heq | hmem'
      · subst heq
        have hskip : ¬ (cte.cterefcount = 0 ∧ cte.ctequery.commandType = .select) := by
          intro hc
          exact hmat ((cteIsSkipped_iff cte).mpr hc)
        rw [if_neg (by simp [houter]), if_neg hskip] at hrun
        have hread : readsIntermediateResult
            (GenerateResultId planId (subs.length + 1))
            (BuildSubPlanResultQuery
              (if cte.ctequery.returningList.isEmpty then cte.ctequery.targetList
               else cte.ctequery.returningList)
              cte.aliascolnames (GenerateResultId planId (subs.length + 1))) =
            true := by
          rw [readsIntermediateResult_build_eq]
          simp
        have h1 := resultReadEntries_replace_pattern
          (GenerateResultId planId (subs.length + 1)) cte.ctename
          (BuildSubPlanResultQuery
            (if cte.ctequery.returningList.isEmpty then cte.ctequery.targetList
             else cte.ctequery.returningList)
            cte.aliascolnames (GenerateResultId planId (subs.length + 1)))
          hread refs 0 (hfresh (subs.length + 1) (Nat.le_refl _))
        have h2 := recursivelyPlanCTEsLoop_rre_preserve planId (subs.length + 1)
          rest _ _ refs' subs' hrun (by simp)
        have h3 := countCteRtesNamed_replace_self cte.ctename
          (BuildSubPlanResultQuery
            (if cte.ctequery.returningList.isEmpty then cte.ctequery.targetList
             else cte.ctequery.returningList)
            cte.aliascolnames (GenerateResultId planId (subs.length + 1)))
          refs 0
        have h4 := recursivelyPlanCTEsLoop_count_preserve planId cte.ctename
          rest _ _ refs' subs' hrun hnodup.1
        refine ⟨subs.length + 1,
          ⟨CreateDistributedSubPlan (subs.length + 1) cte.ctequery, ?_, rfl, rfl⟩,
          ?_, ?_⟩
        · exact recursivelyPlanCTEsLoop_subs_mono planId rest _ _ refs' subs' hrun
            _ (List.mem_append_right _ (List.mem_singleton.mpr rfl))
        · rw [h2, h1]
          simp
        · rw [h4, h3]
      · by_cases hskip : chead.cterefcount = 0 ∧ chead.ctequery.commandType = .select
        · rw [if_neg (by simp [houter]), if_pos hskip] at hrun
          exact ih refs subs refs' subs' cte hrun hmem' hnodup.2 hfresh hmat
        · rw [if_neg (by simp [houter]), if_neg hskip] at hrun
          have hne : chead.ctename ≠ cte.ctename := by
            intro h
            exact hnodup.1 (h ▸ List.mem_map_of_mem CommonTableExpr.ctename hmem')
          have hfresh1 : ∀ sid,
              (subs ++ [CreateDistributedSubPlan (subs.length + 1)
                 chead.ctequery]).length + 1 ≤ sid →
              resultReadEntries (GenerateResultId planId sid)
                (replaceCteReferences chead.ctename
                  (BuildSubPlanResultQuery
                    (if chead.ctequery.returningList.isEmpty
                     then chead.ctequery.targetList
                     else chead.ctequery.returningList)
                    chead.aliascolnames
                    (GenerateResultId planId (subs.length + 1)))
                  0 refs) = [] := by
            intro sid hsid
            simp only [List.length_append, List.length_singleton] at hsid
            have hniq : readsIntermediateResult (GenerateResultId planId sid)
                (BuildSubPlanResultQuery
                  (if chead.ctequery.returningList.isEmpty
                   then chead.ctequery.targetList
                   else chead.ctequery.returningList)
                  chead.aliascolnames
                  (GenerateResultId planId (subs.length + 1))) = false := by
              rw [readsIntermediateResult_build_eq]
              simp only [decide_eq_false_iff_not]
              intro heq
              have := GenerateResultId_injective_right planId heq
              omega
            rw [resultReadEntries_replace_preserve _ _ _ hniq refs 0]
            exact hfresh sid (by omega)
          have hres := ih _ _ refs' subs' cte hrun hmem' hnodup.2 hfresh1 hmat
          have hcnt := countCteRtesNamed_replace_ne cte.ctename chead.ctename
            (BuildSubPlanResultQuery
              (if chead.ctequery.returningList.isEmpty
               then chead.ctequery.targetList
               else chead.ctequery.returningList)
              chead.aliascolnames (GenerateResultId planId (subs.length + 1)))
            hne refs 0
          rcases hres with ⟨sid, hsp, hrre, hzero⟩
          rw [hcnt] at hrre
          exact ⟨sid, hsp, hrre, hzero⟩

/-- C2: for every CTE that is referenced (or has a modifying body),
RecursivelyPlanCTEs creates exactly one subplan from its body, rewrites
every CTE range table entry naming it into a subquery entry reading the
subplan's intermediate result, gives the first rewritten occurrence the
generated result query itself (viaCopyObject = false) and every further
occurrence a copyObject clone (viaCopyObject = true), and rewrites
exactly cterefcount occurrences.  The collective subplan count equals
the number of materialized CTEs, and the query's cteList is cleared. -/
theorem claim_C2_cte_materialization
    (query : Query) (cteReferenceList : List RangeTblEntry)
    (ctx : RecursivePlanningContext) (query' : Query)
    (cteReferenceList' : List RangeTblEntry) (ctx' : RecursivePlanningContext)
    (cte : CommonTableExpr)
    (hrun : RecursivelyPlanCTEs query cteReferenceList ctx =
      .ok (query', cteReferenceList', ctx'))
    (hmem : cte ∈ query.cteList)
    (hnodup : (query.cteList.map CommonTableExpr.ctename).Nodup)
    (hfresh : ∀ sid : Nat,
      resultReadEntries (GenerateResultId ctx.planId sid) cteReferenceList = [])
    (hrefcount : cte.cterefcount =
      countCteRtesNamed cte.ctename cteReferenceList)
    (hmat : ¬ cteIsSkipped cte = true) :
    query'.cteList = [] ∧
    ctx'.subPlanList.length =
      ctx.subPlanList.length + countMaterializedCtes query.cteList ∧
    ∃ sid,
      (∃ sp ∈ ctx'.subPlanList, sp.subPlanId = sid ∧
         sp.subPlanQuery = cte.ctequery) ∧
      resultReadEntries (GenerateResultId ctx.planId sid) cteReferenceList' =
        (if cte.cterefcount = 0 then []
         else
           (BuildSubPlanResultQuery
              (if cte.ctequery.returningList.isEmpty then cte.ctequery.targetList
               else cte.ctequery.returningList)
              cte.aliascolnames (GenerateResultId ctx.planId sid), false) ::
             List.replicate (cte.cterefcount - 1)
               (BuildSubPlanResultQuery
                  (if cte.ctequery.returningList.isEmpty
                   then cte.ctequery.targetList
                   else cte.ctequery.returningList)
                  cte.aliascolnames (GenerateResultId ctx.planId sid), true)) ∧
      countCteRtesNamed cte.ctename cteReferenceList' = 0 := by
  unfold RecursivelyPlanCTEs at hrun
  by_cases hE : query.cteList.isEmpty = true
  · rw [List.isEmpty_iff] at hE
    rw [hE] at hmem
    exact absurd hmem (List.not_mem_nil cte)
  · by_cases hR : query.hasRecursive = true
    · rw [if_neg hE, if_pos hR] at hrun
      simp at hrun
    · rw [if_neg hE, if_neg hR] at hrun
      cases hloop : RecursivelyPlanCTEsLoop ctx.planId query.cteList
          cteReferenceList ctx.subPlanList with
      | error e =>
        rw [hloop] at hrun
        simp at hrun
      | ok pr =>
        obtain ⟨refs1, subs1⟩ := pr
        rw [hloop] at hrun
        simp only [Except.ok.injEq, Prod.mk.injEq] at hrun
        obtain ⟨hq, hrefs, hctx⟩ := hrun
        subst hq
        subst hrefs
        subst hctx
        refine ⟨cteList_setCteList query [], ?_, ?_⟩
        · exact recursivelyPlanCTEsLoop_length ctx.planId query.cteList
            cteReferenceList ctx.subPlanList refs1 subs1 hloop
        · have hmain := recursivelyPlanCTEsLoop_materialized ctx.planId
            query.cteList cteReferenceList ctx.subPlanList refs1 subs1 cte
            hloop hmem hnodup
            (fun sid _ => hfresh sid) hmat
          rw [← hrefcount] at hmain
          exact hmain

/-- C5: a CTE with zero references and a SELECT body is skipped by
RecursivelyPlanCTEs: the subplan count only reflects the materialized
CTEs (which exclude it), none of the CTE range table entries naming it
is rewritten, and after all CTEs are processed the query's cteList is
cleared. -/
theorem claim_C5_unreferenced_cte
    (query : Query) (cteReferenceList : List RangeTblEntry)
    (ctx : RecursivePlanningContext) (query' : Query)
    (cteReferenceList' : List RangeTblEntry) (ctx' : RecursivePlanningContext)
    (cte : CommonTableExpr)
    (hrun : RecursivelyPlanCTEs query cteReferenceList ctx =
      .ok (query', cteReferenceList', ctx'))
    (hmem : cte ∈ query.cteList)
    (hnodup : (query.cteList.map CommonTableExpr.ctename).Nodup)
    (hzero : cte.cterefcount = 0)
    (hsel : cte.ctequery.commandType = .select) :
    query'.cteList = [] ∧
    cteIsSkipped cte = true ∧
    ctx'.subPlanList.length =
      ctx.subPlanList.length + countMaterializedCtes query.cteList ∧
    countCteRtesNamed cte.ctename cteReferenceList' =
      countCteRtesNamed cte.ctename cteReferenceList := by
  unfold RecursivelyPlanCTEs at hrun
  by_cases hE : query.cteList.isEmpty = true
  · rw [List.isEmpty_iff] at hE
    rw [hE] at hmem
    exact absurd hmem (List.not_mem_nil cte)
  · by_cases hR : query.hasRecursive = true
    · rw [if_neg hE, if_pos hR] at hrun
      simp at hrun
    · rw [if_neg hE, if_neg hR] at hrun
      cases hloop : RecursivelyPlanCTEsLoop ctx.planId query.cteList
          cteReferenceList ctx.subPlanList with
      | error e =>
        rw [hloop] at hrun
        simp at hrun
      | ok pr =>
        obtain ⟨refs1, subs1⟩ := pr
        rw [hloop] at hrun
        simp only [Except.ok.injEq, Prod.mk.injEq] at hrun
        obtain ⟨hq, hrefs, hctx⟩ := hrun
        subst hq
        subst hrefs
        subst hctx
        have hskipped : cteIsSkipped cte = true :=
          (cteIsSkipped_iff cte).mpr ⟨hzero, hsel⟩
        refine ⟨cteList_setCteList query [], hskipped, ?_, ?_⟩
        · exact recursivelyPlanCTEsLoop_length ctx.planId query.cteList
            cteReferenceList ctx.subPlanList refs1 subs1 hloop
        · apply recursivelyPlanCTEsLoop_skipped_count ctx.planId cte.ctename
            query.cteList cteReferenceList ctx.subPlanList refs1 subs1 hloop
          intro c hc hn
          have hceq : c = cte :=
            List.inj_on_of_nodup_map hnodup hc hmem hn
          rw [hceq]
          exact hskipped

theorem claim_C2_cte_materialization_witness :
    ∃ query' refs' ctx',
      RecursivelyPlanCTEs cteTwiceQuery cteTwiceQuery.rtable
          emptyPlanningContext = .ok (query', refs', ctx') ∧
      query'.cteList = [] ∧
      ctx'.subPlanList.length = 1 ∧
      (∃ sp ∈ ctx'.subPlanList, sp.subPlanQuery = distQuery) ∧
      (∃ sid,
        resultReadEntries (GenerateResultId 3 sid) refs' =
          [(BuildSubPlanResultQuery distQuery.targetList []
              (GenerateResultId 3 sid), false),
           (BuildSubPlanResultQuery distQuery.targetList []
              (GenerateResultId 3 sid), true)] ∧
        countCteRtesNamed "c" refs' = 0) := by
  have h := claim_C2_cte_materialization cteTwiceQuery cteTwiceQuery.rtable
      emptyPlanningContext _ _ _ (.mk "c" 2 [] distQuery) rfl
      (List.mem_singleton.mpr rfl)
      (by decide)
      (fun sid => rfl)
      (by decide)
      (by decide)
  refine ⟨_, _, _, rfl, h.1, ?_, ?_, ?_⟩
  · exact h.2.1.trans (by decide)
  · obtain ⟨sid, ⟨sp, hspmem, _, hspq⟩, _, _⟩ := h.2.2
    exact ⟨sp, hspmem, hspq⟩
  · obtain ⟨sid, _, hrre, h0⟩ := h.2.2
    refine ⟨sid, ?_, h0⟩
    simpa using hrre

theorem claim_C5_unreferenced_cte_witness :
    ∃ query' refs' ctx',
      RecursivelyPlanCTEs cteUnreferencedQuery cteUnreferencedQuery.rtable
          emptyPlanningContext = .ok (query', refs', ctx') ∧
      query'.cteList = [] ∧
      ctx'.subPlanList = [] ∧
      refs' = [] := by
  have h := claim_C5_unreferenced_cte cteUnreferencedQuery
      cteUnreferencedQuery.rtable emptyPlanningContext _ _ _
      (.mk "c" 0 [] selectOneQuery) rfl
      (List.mem_singleton.mpr rfl)
      (by decide)
      rfl
      rfl
  refine ⟨_, _, _, rfl, h.1, rfl, rfl⟩
